import Mathlib

/-!
# plugNmeet-server: the multi-protocol authentication service

A shallow embedding of `pkg/services/auth/multi_auth.go` and of the handler
`HandleJWTAuth` of `pkg/controllers/multi_auth.go`.

* Go strings are Lean `String`s; where the code works on the bytes of a string
  (URL escaping) they are lists of `Byte`.
* A Go function returning `(*AuthResult, error)` returns an `Outcome`: the pair
  it returned, or the fact that it panicked.
* Every call that leaves the process (token exchange, HTTP request, LDAP
  operation, clock read) is answered by a field of `Env` and recorded as an
  `Event`; the answer may depend on all events that happened before.
* Library functions that decode or verify data (base64, XML, PEM, X.509, JOSE)
  are fields of `Env` as well: the service only branches on their answers.
  The few string functions with a fixed meaning (`strings.Contains`,
  `fmt.Sprintf` with `%s`, `url.QueryEscape`) are written out, and so is the
  claim validation of go-jose, `Claims.Validate`, which the statements on
  issuer, audience and time need.
-/

namespace MultiAuth

/-! ## Data model -/

/-- A Go `map[string]string` as an association list; a nil map reads as `[]`. -/
abbrev StringMap := List (String × String)

/-- The lookup `v, ok := m[k]`. -/
def mapGet : StringMap → String → Option String
  | [], _ => none
  | (k', v) :: rest, k => if k' = k then some v else mapGet rest k

/-- The assignment `m[k] = v`. -/
def mapSet : StringMap → String → String → StringMap
  | [], k, v => [(k, v)]
  | (k', v') :: rest, k, v => if k' = k then (k, v) :: rest else (k', v') :: mapSet rest k v

/-- The type `AuthMethod`, a Go string type. -/
abbrev AuthMethod := String

def APIKeyAuth : AuthMethod := "api_key"
def OAuth2Auth : AuthMethod := "oauth2"
def SAMLAuth : AuthMethod := "saml"
def LDAPAuth : AuthMethod := "ldap"
def JWTTokenAuth : AuthMethod := "jwt_token"

structure OAuth2Config where
  ClientID : String
  ClientSecret : String
  RedirectURL : String
  Scopes : List String
  AuthURL : String
  TokenURL : String
deriving DecidableEq, Repr

structure SAMLConfig where
  IDPIssuerURL : String
  IDPCert : String
  SPCert : String
  SPKey : String
  AssertionConsumerServiceURL : String
deriving DecidableEq, Repr

structure LDAPConfig where
  Server : String
  Port : Int
  BaseDN : String
  BindDN : String
  BindPass : String
deriving DecidableEq, Repr

structure JWTConfig where
  Issuer : String
  Audience : String
  Key : String
deriving DecidableEq, Repr

structure AuthConfig where
  Method : AuthMethod
  OAuth2 : OAuth2Config
  SAML : SAMLConfig
  LDAP : LDAPConfig
  JWT : JWTConfig
deriving DecidableEq, Repr

structure AuthResult where
  UserID : String
  UserName : String
  Email : String
  Attributes : StringMap
  Valid : Bool
  AccessToken : String
deriving DecidableEq, Repr

/-- What a call of type `(*AuthResult, error)` did: it returned the pair
`(result, err)`, where `none` is Go's `nil`, or it panicked. -/
inductive Outcome where
  | returned (result : Option AuthResult) (err : Option String)
  | panicked (msg : String)
deriving DecidableEq, Repr

/-! ## Library values the service handles -/

/-- The type `oauth2.Endpoint`. -/
structure Endpoint where
  AuthURL : String
  TokenURL : String
deriving DecidableEq, Repr

/-- The type `oauth2.Config`. -/
structure OAuthClient where
  ClientID : String
  ClientSecret : String
  RedirectURL : String
  Scopes : List String
  Endpoint : Endpoint
deriving DecidableEq, Repr

/-- The type `oauth2.Token`. -/
structure Token where
  AccessToken : String
  TokenType : String
  RefreshToken : String
deriving DecidableEq, Repr

/-- An `*http.Response`: its status code and what reading its body to the end
gives (the bytes, or a read error). -/
structure HTTPResponse where
  StatusCode : Nat
  Body : Except String String

/-- One `Attribute` element as `xml.Unmarshal` fills it in. -/
structure SAMLAttribute where
  Name : String
  Values : List String
deriving DecidableEq, Repr

/-- The anonymous struct `response` of `authenticateSAML`, flattened:
`Assertion.Subject.NameID.Value` and `Assertion.AttributeStatement.Attributes`. -/
structure SAMLResponse where
  NameID : String
  Attributes : List SAMLAttribute
deriving DecidableEq, Repr

/-- The type `ldap.EntryAttribute`. -/
structure EntryAttribute where
  Name : String
  Values : List String
deriving DecidableEq, Repr

/-- The type `ldap.Entry`. -/
structure Entry where
  DN : String
  Attributes : List EntryAttribute
deriving DecidableEq, Repr

/-- The arguments `authenticateLDAP` gives to `ldap.NewSearchRequest`. -/
structure SearchRequest where
  BaseDN : String
  Filter : String
  Attributes : List String
deriving DecidableEq, Repr

/-- A key as `x509.ParsePKIXPublicKey` returns it: an RSA key or another kind. -/
inductive PublicKey where
  | rsa (modulus : Nat) (exponent : Nat)
  | other (algorithm : String)
deriving DecidableEq, Repr

/-- A parsed compact JWT (`*jwt.JSONWebToken`); the service never looks inside. -/
structure JSONWebToken where
  compact : String
deriving DecidableEq, Repr

/-- The type `jwt.Claims`; dates are seconds since the epoch, `none` is a nil date. -/
structure Claims where
  Issuer : String
  Subject : String
  Audience : List String
  Expiry : Option Int
  NotBefore : Option Int
  IssuedAt : Option Int
  ID : String
deriving DecidableEq, Repr

/-- The value `jwt.Expected` that `authenticateJWT` builds; the time is in
nanoseconds since the epoch. -/
structure Expected where
  Issuer : String
  Audience : List String
  Time : Int
deriving DecidableEq, Repr

/-- A decoded JSON value held in an `interface{}`; the service only asks
whether it is a string. -/
inductive JSONValue where
  | str (s : String)
  | number (text : String)
  | bool (b : Bool)
  | null
  | composite (text : String)
deriving DecidableEq, Repr

/-- A visible action of the service on the outside world. -/
inductive Event where
  | tokenExchange (client : OAuthClient) (code : String)
  | httpGet (url : String) (accessToken : String)
  | bodyClose
  | ldapDial (addr : String)
  | ldapBind (dn : String) (password : String)
  | ldapSearch (req : SearchRequest)
  | ldapClose
  | timeNow
deriving DecidableEq, Repr

/-- Everything `multi_auth.go` calls and does not define. The first group
talks to the outside world and sees the events so far; the second group is
pure library code. An `Option String` answer is a Go `error` (`none` is nil). -/
structure Env where
  /-- The call `oauthConfig.Exchange(ctx, code)`. -/
  Exchange : List Event → OAuthClient → String → Except String Token
  /-- The call `oauthConfig.Client(ctx, token).Get(url)`. -/
  Get : List Event → OAuthClient → Token → String → Except String HTTPResponse
  /-- The call `ldap.Dial("tcp", addr)`. -/
  Dial : List Event → String → Option String
  /-- The call `conn.Bind(dn, password)`. -/
  Bind : List Event → String → String → Option String
  /-- The call `conn.Search(req)`; the answer is `sr.Entries`. -/
  Search : List Event → SearchRequest → Except String (List Entry)
  /-- The call `time.Now()`, in nanoseconds since the epoch. -/
  Now : List Event → Int
  /-- The order in which a `range` over the custom-claims map visits it. -/
  rangeOrder : List (String × JSONValue) → List (String × JSONValue)
  /-- The constant `google.Endpoint`. -/
  googleEndpoint : Endpoint
  /-- The call `base64.StdEncoding.DecodeString`. -/
  DecodeString : String → Except String String
  /-- The call `xml.Unmarshal(decoded, &response)`. -/
  Unmarshal : String → Except String SAMLResponse
  /-- The call `pem.Decode`; the answer is `block.Bytes`, `none` a nil block. -/
  pemDecode : String → Option String
  /-- The call `x509.ParsePKIXPublicKey`. -/
  ParsePKIXPublicKey : String → Except String PublicKey
  /-- The call `jwt.ParseSigned`. -/
  ParseSigned : String → Except String JSONWebToken
  /-- The call `token.Claims(rsaPub, &claims, &customClaims)`: signature
  verification against the key, then decoding of the payload. -/
  VerifyClaims : JSONWebToken → PublicKey → Except String (Claims × List (String × JSONValue))
  /-- The call `claims.Validate(expected)`. -/
  Validate : Claims → Expected → Option String

/-! ## Small library functions with a fixed meaning -/

/-- The function `strings.Contains`, on the characters of `s` and `sub`. -/
def containsChars : List Char → List Char → Bool
  | [], sub => sub.isEmpty
  | c :: cs, sub => sub.isPrefixOf (c :: cs) || containsChars cs sub

/-- The function `strings.Contains`. -/
def stringsContains (s sub : String) : Bool := containsChars s.data sub.data

/-- The method `(*ldap.Entry).GetAttributeValue`: the first value of the first
attribute with exactly this name, and the empty string when there is none. -/
def GetAttributeValue : List EntryAttribute → String → String
  | [], _ => ""
  | a :: rest, name => if a.Name = name then a.Values.headD "" else GetAttributeValue rest name

/-- The constant `jwt.DefaultLeeway` of go-jose: one minute, in nanoseconds. -/
def DefaultLeeway : Int := 60000000000

/-- The instant `NumericDate.Time()` of a date in seconds, in nanoseconds since
the epoch. -/
def NumericDateTime (seconds : Int) : Int := seconds * 1000000000

/-- The test `date != nil && t.Before(date.Time())`. -/
def beforeDate (t : Int) : Option Int → Bool
  | none => false
  | some date => t < NumericDateTime date

/-- The test `date != nil && t.After(date.Time())`. -/
def afterDate (t : Int) : Option Int → Bool
  | none => false
  | some date => NumericDateTime date < t

/-- The method `Claims.ValidateWithLeeway` of go-jose (`jwt/validation.go`), for
an expectation as `authenticateJWT` builds it: `Subject` and `ID` are empty, so
these two checks are skipped, and the time is never the zero time, so the
dates are always checked. An empty expected issuer skips the issuer check. -/
def Claims.ValidateWithLeeway (c : Claims) (e : Expected) (leeway : Int) : Option String :=
  if e.Issuer ≠ "" ∧ e.Issuer ≠ c.Issuer then
    some "square/go-jose/jwt: validation failed, invalid issuer claim (iss)"
  else if ¬ (∀ v ∈ e.Audience, v ∈ c.Audience) then
    some "square/go-jose/jwt: validation failed, invalid audience claim (aud)"
  else if beforeDate (e.Time + leeway) c.NotBefore then
    some "square/go-jose/jwt: validation failed, token not valid yet (nbf)"
  else if afterDate (e.Time - leeway) c.Expiry then
    some "square/go-jose/jwt: validation failed, token is expired (exp)"
  else if beforeDate (e.Time + leeway) c.IssuedAt then
    some "square/go-jose/jwt: validation field, token issued in the future (iat)"
  else none

/-- The method `Claims.Validate` of go-jose: validation with the default leeway. -/
def Claims.Validate (c : Claims) (e : Expected) : Option String :=
  c.ValidateWithLeeway e DefaultLeeway

/-- The pair `return nil, fmt.Errorf(msg)`. -/
def fail (msg : String) : Outcome := Outcome.returned none (some msg)

/-- The pair `return result, nil`. -/
def succeed (result : AuthResult) : Outcome := Outcome.returned (some result) none

/-! ## OAuth2 -/

/-- The user-info address written into `authenticateOAuth2`. -/
def userInfoURL : String := "https://www.googleapis.com/oauth2/v2/userinfo"

/-- The method `authenticateOAuth2`. -/
def authenticateOAuth2 (env : Env) (config : OAuth2Config) (credentials : StringMap) :
    Outcome × List Event :=
  let oauthConfig : OAuthClient :=
    { ClientID := config.ClientID
      ClientSecret := config.ClientSecret
      RedirectURL := config.RedirectURL
      Scopes := config.Scopes
      Endpoint :=
        if stringsContains config.AuthURL "google" then env.googleEndpoint
        else { AuthURL := config.AuthURL, TokenURL := config.TokenURL } }
  match mapGet credentials "code" with
  | none => (fail "missing authorization code", [])
  | some code =>
    let t1 := [Event.tokenExchange oauthConfig code]
    match env.Exchange [] oauthConfig code with
    | .error e => (fail ("failed to exchange token: " ++ e), t1)
    | .ok token =>
      let t2 := t1 ++ [Event.httpGet userInfoURL token.AccessToken]
      match env.Get t1 oauthConfig token userInfoURL with
      | .error e => (fail ("failed to get user info: " ++ e), t2)
      | .ok resp =>
        -- from here on the deferred `resp.Body.Close()` runs at every return
        match resp.Body with
        | .error e => (fail ("failed to read user info: " ++ e), t2 ++ [Event.bodyClose])
        | .ok _ =>
          (succeed
            { UserID := ""
              UserName := ""
              Email := ""
              Attributes := []
              Valid := true
              AccessToken := token.AccessToken },
           t2 ++ [Event.bodyClose])

/-! ## SAML -/

/-- The attribute loop of `authenticateSAML`. -/
def samlCopyAttributes : List SAMLAttribute → AuthResult → AuthResult
  | [], result => result
  | attr :: rest, result =>
    match attr.Values with
    | [] => samlCopyAttributes rest result
    | v :: _ =>
      let result := { result with Attributes := mapSet result.Attributes attr.Name v }
      let result :=
        if attr.Name = "email" ∨ attr.Name = "mail" then { result with Email := v } else result
      samlCopyAttributes rest result

/-- The method `authenticateSAML`. -/
def authenticateSAML (env : Env) (_config : SAMLConfig) (credentials : StringMap) :
    Outcome × List Event :=
  match mapGet credentials "SAMLResponse" with
  | none => (fail "missing SAML response", [])
  | some samlResponse =>
    match env.DecodeString samlResponse with
    | .error e => (fail ("failed to decode SAML response: " ++ e), [])
    | .ok decoded =>
      match env.Unmarshal decoded with
      | .error e => (fail ("failed to parse SAML response: " ++ e), [])
      | .ok response =>
        let result : AuthResult :=
          { UserID := response.NameID
            UserName := response.NameID
            Email := ""
            Valid := true
            Attributes := []
            AccessToken := "" }
        (succeed (samlCopyAttributes response.Attributes result), [])

/-! ## LDAP -/

/-- The attribute loop of `authenticateLDAP`; `none` when `attr.Values[0]`
indexes an empty slice, which panics. -/
def ldapCopyAttributes : List EntryAttribute → StringMap → Option StringMap
  | [], attrs => some attrs
  | attr :: rest, attrs =>
    match attr.Values with
    | [] => none
    | v :: _ => ldapCopyAttributes rest (mapSet attrs attr.Name v)

/-- The method `authenticateLDAP`. -/
def authenticateLDAP (env : Env) (config : LDAPConfig) (credentials : StringMap) :
    Outcome × List Event :=
  let addr := config.Server ++ ":" ++ toString config.Port
  let t0 := [Event.ldapDial addr]
  match env.Dial [] addr with
  | some e => (fail ("failed to connect to LDAP server: " ++ e), t0)
  | none =>
    -- `defer conn.Close()`: the body below runs, then the connection is closed
    let body : Outcome × List Event :=
      let serviceBind : Option String × List Event :=
        if config.BindDN ≠ "" then
          (env.Bind t0 config.BindDN config.BindPass,
           t0 ++ [Event.ldapBind config.BindDN config.BindPass])
        else (none, t0)
      match serviceBind.1 with
      | some e => (fail ("failed to bind with BindDN: " ++ e), serviceBind.2)
      | none =>
        let t1 := serviceBind.2
        match mapGet credentials "username" with
        | none => (fail "missing username", t1)
        | some username =>
          match mapGet credentials "password" with
          | none => (fail "missing password", t1)
          | some password =>
            let userDN := "uid=" ++ username ++ "," ++ config.BaseDN
            let userDN :=
              if config.BindDN = "" then "cn" ++ "=" ++ username ++ "," ++ config.BaseDN
              else userDN
            let t2 := t1 ++ [Event.ldapBind userDN password]
            match env.Bind t1 userDN password with
            | some e => (fail ("failed to bind user: " ++ e), t2)
            | none =>
              let searchRequest : SearchRequest :=
                { BaseDN := config.BaseDN
                  Filter := "(&(objectClass=person)(uid=" ++ username ++ "))"
                  Attributes := ["dn", "cn", "mail"] }
              let t3 := t2 ++ [Event.ldapSearch searchRequest]
              match env.Search t2 searchRequest with
              | .error e => (fail ("failed to search user: " ++ e), t3)
              | .ok [] => (fail "user not found", t3)
              | .ok (entry :: _) =>
                match ldapCopyAttributes entry.Attributes [] with
                | none =>
                  (Outcome.panicked "runtime error: index out of range [0] with length 0", t3)
                | some attrs =>
                  (succeed
                    { UserID := entry.DN
                      UserName := GetAttributeValue entry.Attributes "cn"
                      Email := GetAttributeValue entry.Attributes "mail"
                      Valid := true
                      Attributes := attrs
                      AccessToken := "" },
                   t3)
    (body.1, body.2 ++ [Event.ldapClose])

/-! ## JWT -/

/-- The claim loop of `authenticateJWT`, over the entries in the order the
`range` visits them. -/
def jwtCopyClaims : List (String × JSONValue) → AuthResult → AuthResult
  | [], result => result
  | (key, JSONValue.str str) :: rest, result =>
    let result := { result with Attributes := mapSet result.Attributes key str }
    let result :=
      if key = "name" ∨ key = "username" then { result with UserName := str }
      else if key = "email" then { result with Email := str }
      else result
    jwtCopyClaims rest result
  | (_, _) :: rest, result => jwtCopyClaims rest result

/-- The method `authenticateJWT`. -/
def authenticateJWT (env : Env) (config : JWTConfig) (credentials : StringMap) :
    Outcome × List Event :=
  match mapGet credentials "token" with
  | none => (fail "missing JWT token", [])
  | some tokenString =>
    match env.pemDecode config.Key with
    | none => (fail "failed to parse PEM block containing the public key", [])
    | some blockBytes =>
      match env.ParsePKIXPublicKey blockBytes with
      | .error e => (fail ("failed to parse public key: " ++ e), [])
      | .ok (PublicKey.other _) => (fail "not an RSA public key", [])
      | .ok (PublicKey.rsa n e) =>
        match env.ParseSigned tokenString with
        | .error e => (fail ("failed to parse JWT token: " ++ e), [])
        | .ok token =>
          match env.VerifyClaims token (PublicKey.rsa n e) with
          | .error e => (fail ("failed to verify JWT token: " ++ e), [])
          | .ok (claims, customClaims) =>
            let expected : Expected :=
              { Issuer := config.Issuer
                Audience := [config.Audience]
                Time := env.Now [] }
            match env.Validate claims expected with
            | some e => (fail ("JWT token validation failed: " ++ e), [Event.timeNow])
            | none =>
              let result : AuthResult :=
                { UserID := claims.Subject
                  UserName := ""
                  Email := ""
                  Valid := true
                  Attributes := []
                  AccessToken := "" }
              (succeed (jwtCopyClaims (env.rangeOrder customClaims) result), [Event.timeNow])

/-! ## The dispatcher -/

/-- The method `Authenticate`. -/
def Authenticate (env : Env) (config : AuthConfig) (credentials : StringMap) :
    Outcome × List Event :=
  if config.Method = OAuth2Auth then authenticateOAuth2 env config.OAuth2 credentials
  else if config.Method = SAMLAuth then authenticateSAML env config.SAML credentials
  else if config.Method = LDAPAuth then authenticateLDAP env config.LDAP credentials
  else if config.Method = JWTTokenAuth then authenticateJWT env config.JWT credentials
  else (fail ("unsupported authentication method: " ++ config.Method), [])

/-! ## The SAML redirect address -/

/-- One byte of a Go string. -/
abbrev Byte := Fin 256

/-- The UTF-8 bytes of one character. -/
def utf8EncodeChar (c : Char) : List Byte :=
  let n := c.toNat
  if n < 0x80 then [Fin.ofNat n]
  else if n < 0x800 then [Fin.ofNat (0xC0 + n / 64), Fin.ofNat (0x80 + n % 64)]
  else if n < 0x10000 then
    [Fin.ofNat (0xE0 + n / 4096), Fin.ofNat (0x80 + n / 64 % 64), Fin.ofNat (0x80 + n % 64)]
  else
    [Fin.ofNat (0xF0 + n / 262144), Fin.ofNat (0x80 + n / 4096 % 64),
     Fin.ofNat (0x80 + n / 64 % 64), Fin.ofNat (0x80 + n % 64)]

/-- The bytes of a Go string given as a Lean string. -/
def utf8 (s : String) : List Byte := (s.data.map utf8EncodeChar).flatten

/-- The function `shouldEscape(c, encodeQueryComponent)` of `net/url`. -/
def shouldEscape (c : Byte) : Bool :=
  if (97 ≤ c.val ∧ c.val ≤ 122) ∨ (65 ≤ c.val ∧ c.val ≤ 90) ∨ (48 ≤ c.val ∧ c.val ≤ 57) then false
  else if c = 45 ∨ c = 95 ∨ c = 46 ∨ c = 126 then false
  else true

/-- The digit `"0123456789ABCDEF"[n]`. -/
def upperhex (n : Nat) : Byte :=
  ([48, 49, 50, 51, 52, 53, 54, 55, 56, 57, 65, 66, 67, 68, 69, 70] : List Byte).getD n 0

/-- What `url.QueryEscape` writes for one byte. -/
def escapeByte (c : Byte) : List Byte :=
  if c = 32 then [43]
  else if shouldEscape c then [37, upperhex (c.val / 16), upperhex (c.val % 16)]
  else [c]

/-- The function `url.QueryEscape`. -/
def QueryEscape : List Byte → List Byte
  | [] => []
  | c :: rest => escapeByte c ++ QueryEscape rest

/-- The method `GenerateSAMLAuthURL`. -/
def GenerateSAMLAuthURL (config : SAMLConfig) (relayState : List Byte) : List Byte :=
  let authRequest :=
    utf8 "saml_request=" ++ QueryEscape (utf8 "SAMLRequest") ++
      utf8 "&relay_state=" ++ QueryEscape relayState
  utf8 config.IDPIssuerURL ++ utf8 "?" ++ authRequest

/-! ## Reading a query parameter back

The receiving side of the redirect, as `net/url` does it: `url.Parse` cuts the
fragment and the query off the address, `ParseQuery` splits the query, and
`Values.Get` picks the first value of a key. -/

/-- The function `ishex` of `net/url`. -/
def ishex (c : Byte) : Bool :=
  (48 ≤ c.val ∧ c.val ≤ 57) ∨ (97 ≤ c.val ∧ c.val ≤ 102) ∨ (65 ≤ c.val ∧ c.val ≤ 70)

/-- The function `unhex` of `net/url`. -/
def unhex (c : Byte) : Nat :=
  if 48 ≤ c.val ∧ c.val ≤ 57 then c.val - 48
  else if 97 ≤ c.val ∧ c.val ≤ 102 then c.val - 97 + 10
  else if 65 ≤ c.val ∧ c.val ≤ 70 then c.val - 65 + 10
  else 0

/-- The function `url.QueryUnescape`; `none` is its `EscapeError`. -/
def QueryUnescape : List Byte → Option (List Byte)
  | [] => some []
  | c :: rest =>
    if c = 37 then
      match rest with
      | h :: l :: rest2 =>
        if ishex h ∧ ishex l then
          (QueryUnescape rest2).map (fun t => Fin.ofNat (unhex h * 16 + unhex l) :: t)
        else none
      | _ => none
    else if c = 43 then (QueryUnescape rest).map (fun t => 32 :: t)
    else (QueryUnescape rest).map (fun t => c :: t)

/-- The text before the first `sep`, all of `s` when there is none. -/
def cutBefore (sep : Byte) : List Byte → List Byte
  | [] => []
  | c :: rest => if c = sep then [] else c :: cutBefore sep rest

/-- The text after the first `sep`, empty when there is none. -/
def cutAfter (sep : Byte) : List Byte → List Byte
  | [] => []
  | c :: rest => if c = sep then rest else cutAfter sep rest

/-- The function `strings.Cut(s, sep)` for a one-byte separator. -/
def cut (sep : Byte) (s : List Byte) : List Byte × List Byte :=
  (cutBefore sep s, cutAfter sep s)

/-- The field `RawQuery` of the parsed address: the fragment is cut at the first
`#`, the query starts after the first `?`. -/
def rawQuery (address : List Byte) : List Byte :=
  (cut 63 (cut 35 address).1).2

/-- The pieces of a query between `&`. -/
def splitAmp : List Byte → List (List Byte)
  | [] => [[]]
  | c :: rest =>
    if c = 38 then [] :: splitAmp rest
    else
      match splitAmp rest with
      | [] => [[c]]
      | piece :: pieces => (c :: piece) :: pieces

/-- One turn of the loop of `url.ParseQuery`: an empty piece, a piece with a
semicolon and a piece that does not unescape add nothing. -/
def parsePair (piece : List Byte) : Option (List Byte × List Byte) :=
  if (59 : Byte) ∈ piece then none
  else if piece = [] then none
  else
    match QueryUnescape (cut 61 piece).1, QueryUnescape (cut 61 piece).2 with
    | some key, some value => some (key, value)
    | _, _ => none

/-- The function `url.ParseQuery`, as the list of its key-value pairs in order. -/
def ParseQuery (query : List Byte) : List (List Byte × List Byte) :=
  (splitAmp query).filterMap parsePair

/-- The first value of the query parameter `key` of an address
(`u.Query()[key][0]`), `none` when the address has no such parameter. -/
def queryParam (address : List Byte) (key : List Byte) : Option (List Byte) :=
  ((ParseQuery (rawQuery address)).find? (fun kv => kv.1 = key)).map (fun kv => kv.2)

/-! ## Concrete environments and inputs used to evaluate the service -/

/-- An environment in which every outside call fails and every library call
rejects its input. -/
def offlineEnv : Env where
  Exchange := fun _ _ _ => .error "dial tcp: connection refused"
  Get := fun _ _ _ _ => .error "dial tcp: connection refused"
  Dial := fun _ _ => some "dial tcp: connection refused"
  Bind := fun _ _ _ => some "LDAP Result Code 49: Invalid Credentials"
  Search := fun _ _ => .error "LDAP Result Code 32: No Such Object"
  Now := fun _ => 1700000000000000000
  rangeOrder := fun m => m
  googleEndpoint :=
    { AuthURL := "https://accounts.google.com/o/oauth2/auth"
      TokenURL := "https://oauth2.googleapis.com/token" }
  DecodeString := fun _ => .error "illegal base64 data at input byte 0"
  Unmarshal := fun _ => .error "EOF"
  pemDecode := fun _ => none
  ParsePKIXPublicKey := fun _ => .error "asn1: syntax error"
  ParseSigned := fun _ => .error "compact JWS format must have three parts"
  VerifyClaims := fun _ _ => .error "error in cryptographic primitive"
  Validate := fun _ _ => some "validation failed"

/-- A configuration with the given method tag and empty branches but for the
ones filled in by the caller. -/
def emptyConfig (method : AuthMethod) : AuthConfig where
  Method := method
  OAuth2 :=
    { ClientID := "", ClientSecret := "", RedirectURL := "", Scopes := [],
      AuthURL := "", TokenURL := "" }
  SAML :=
    { IDPIssuerURL := "", IDPCert := "", SPCert := "", SPKey := "",
      AssertionConsumerServiceURL := "" }
  LDAP := { Server := "", Port := 0, BaseDN := "", BindDN := "", BindPass := "" }
  JWT := { Issuer := "", Audience := "", Key := "" }

/-- A directory at `ldap.example.com:389` that accepts every bind and answers
every search with `entries`. -/
def directoryEnv (entries : List Entry) : Env :=
  { offlineEnv with
    Dial := fun _ _ => none
    Bind := fun _ _ _ => none
    Search := fun _ _ => .ok entries }

/-- The LDAP branch used in the examples; `bindDN` is the service account. -/
def exampleLDAP (bindDN : String) : LDAPConfig where
  Server := "ldap.example.com"
  Port := 389
  BaseDN := "dc=example,dc=com"
  BindDN := bindDN
  BindPass := "service-secret"

/-- The credentials of the user `alice`. -/
def aliceCredentials : StringMap := [("username", "alice"), ("password", "wonderland")]

/-- A SAML response without any `Signature` element. -/
def unsignedResponseXML : String :=
  "<Response><Assertion><Subject><NameID>admin@example.com</NameID></Subject></Assertion></Response>"

/-- The base64 text of `unsignedResponseXML`. -/
def unsignedResponseBase64 : String :=
  "PFJlc3BvbnNlPjxBc3NlcnRpb24+PFN1YmplY3Q+PE5hbWVJRD5hZG1pbkBleGFtcGxlLmNvbTwvTmFtZUlEPjwvU3ViamVjdD48L0Fzc2VydGlvbj48L1Jlc3BvbnNlPg=="

/-- Library answers for the unsigned response: it decodes and it unmarshals. -/
def samlEnv : Env :=
  { offlineEnv with
    DecodeString := fun s =>
      if s = unsignedResponseBase64 then .ok unsignedResponseXML
      else .error "illegal base64 data at input byte 0"
    Unmarshal := fun x =>
      if x = unsignedResponseXML then .ok { NameID := "admin@example.com", Attributes := [] }
      else .error "EOF" }

/-- A configuration for SAML whose identity-provider certificate is `cert`. -/
def samlConfig (cert : String) : AuthConfig :=
  { emptyConfig SAMLAuth with
    SAML :=
      { IDPIssuerURL := "https://idp.example.com/sso", IDPCert := cert, SPCert := "",
        SPKey := "", AssertionConsumerServiceURL := "https://meet.example.com/auth/saml" } }

/-- A provider whose token endpoint issues `ya29.token` and whose user-info
endpoint answers with the given status code and body. -/
def providerEnv (status : Nat) (body : String) : Env :=
  { offlineEnv with
    Exchange := fun _ _ _ =>
      .ok { AccessToken := "ya29.token", TokenType := "Bearer", RefreshToken := "" }
    Get := fun _ _ _ _ => .ok { StatusCode := status, Body := .ok body } }

/-- A configuration for OAuth2 with Google. -/
def googleConfig : AuthConfig :=
  { emptyConfig OAuth2Auth with
    OAuth2 :=
      { ClientID := "client-1", ClientSecret := "secret-1",
        RedirectURL := "https://meet.example.com/auth/oauth2/google", Scopes := ["email"],
        AuthURL := "https://accounts.google.com/o/oauth2/auth",
        TokenURL := "https://oauth2.googleapis.com/token" } }

/-- The user-info document Google returns for the user `1234`. -/
def googleUserInfo : String :=
  "\x7b\"id\": \"1234\", \"name\": \"Alice\", \"email\": \"alice@example.com\"\x7d"

/-- Library answers for one token: the key parses as an RSA key, the token
parses, signature verification answers `verified` and the claims are
validated as go-jose does; the clock shows 1700000000 seconds. -/
def jwtEnv (verified : Except String (Claims × List (String × JSONValue))) : Env :=
  { offlineEnv with
    pemDecode := fun _ => some "der-bytes"
    ParsePKIXPublicKey := fun _ => .ok (PublicKey.rsa 3233 17)
    ParseSigned := fun s => .ok { compact := s }
    VerifyClaims := fun _ _ => verified
    Validate := Claims.Validate }

/-- A configuration for JWT. -/
def jwtConfig : AuthConfig :=
  { emptyConfig JWTTokenAuth with
    JWT := { Issuer := "https://issuer.example.com", Audience := "plugnmeet", Key := "PEM" } }

/-- The standard claims of a token for `alice`, issued by `issuer`. -/
def aliceClaims (issuer : String) : Claims where
  Issuer := issuer
  Subject := "alice"
  Audience := ["plugnmeet"]
  Expiry := some 1700003600
  NotBefore := some 1699999000
  IssuedAt := none
  ID := ""

/-- The payload entries of the token for `alice`. -/
def aliceCustomClaims : List (String × JSONValue) :=
  [("sub", JSONValue.str "alice"), ("name", JSONValue.str "Alice"),
   ("email", JSONValue.str "alice@example.com"), ("exp", JSONValue.number "1700003600")]

/-- A configuration for LDAP without a service account. -/
def ldapConfig : AuthConfig :=
  { emptyConfig LDAPAuth with LDAP := exampleLDAP "" }

/-- The entry of `alice` as a directory sends it when the reader may see that
she has a `mail` attribute but not its values. -/
def valuelessEntry : Entry where
  DN := "uid=alice,dc=example,dc=com"
  Attributes := [{ Name := "cn", Values := ["Alice"] }, { Name := "mail", Values := [] }]

/-- The two ways `Authenticate` may return: a nil result with an error, or a
result marked valid with a nil error. A panic does not return. -/
def Outcome.Conventional : Outcome → Prop
  | Outcome.returned none (some _) => True
  | Outcome.returned (some result) none => result.Valid = true
  | Outcome.returned _ _ => False
  | Outcome.panicked _ => False

/-- The entry of `alice` with a name and a mail address. -/
def aliceEntry : Entry where
  DN := "uid=alice,dc=example,dc=com"
  Attributes :=
    [{ Name := "cn", Values := ["Alice"] },
     { Name := "mail", Values := ["alice@example.com", "alice@example.org"] }]

/-- A configuration for OAuth2 with a provider that is not Google but whose
authorization address contains the text `google`. -/
def ssoConfig : AuthConfig :=
  { emptyConfig OAuth2Auth with
    OAuth2 :=
      { ClientID := "client-2", ClientSecret := "secret-2",
        RedirectURL := "https://meet.example.com/auth/oauth2/sso", Scopes := [],
        AuthURL := "https://sso.example.com/google-apps/authorize",
        TokenURL := "https://sso.example.com/token" } }


/-! ## The JWT handler of the controller -/

/-- The JWT part of the application settings, `c.app.Client.AuthMethods.JWT`.
The handler is given `none` when `AuthMethods` or its `JWT` field is nil. -/
structure JWTSettings where
  Enabled : Bool
  Issuer : String
  Audience : String
  Key : String
deriving DecidableEq, Repr

/-- What a handler sends back: the common status-and-message answer
(`utils.SendCommonProtoJsonResponse`), the JSON document of a successful
login, or nothing when the call panicked. -/
inductive Response where
  | common (status : Bool) (msg : String)
  | loggedIn (userID : String) (userName : String) (email : String)
  | panicked (msg : String)
deriving DecidableEq, Repr

/-- The credentials `HandleJWTAuth` builds from a non-empty `Authorization`
header: the prefix is cut when `len(token) > 7 && token[:7] == "Bearer "`. The
prefix is ASCII, so counting and cutting characters is counting and cutting
bytes here. -/
def jwtCredentials (token : String) : StringMap :=
  let token :=
    if token.length > 7 ∧ token.data.take 7 = "Bearer ".data then String.mk (token.data.drop 7)
    else token
  [("token", token)]

/-- The configuration `HandleJWTAuth` builds; the other branches are zero. -/
def jwtAuthConfig (settings : JWTSettings) : AuthConfig :=
  { emptyConfig JWTTokenAuth with
    JWT := { Issuer := settings.Issuer, Audience := settings.Audience, Key := settings.Key } }

/-- The end of `HandleJWTAuth`: what is sent back for an outcome of
`Authenticate`. -/
def authResponse : Outcome × List Event → Response × List Event
  | (Outcome.returned _ (some err), events) => (Response.common false err, events)
  | (Outcome.returned (some result) none, events) =>
    if result.Valid = false then (Response.common false "Authentication failed", events)
    else (Response.loggedIn result.UserID result.UserName result.Email, events)
  | (Outcome.returned none none, events) =>
    (Response.panicked "invalid memory address or nil pointer dereference", events)
  | (Outcome.panicked msg, events) => (Response.panicked msg, events)

/-- The method `HandleJWTAuth`, given the JWT settings and the value of the
`Authorization` header (empty when the header is absent). -/
def HandleJWTAuth (env : Env) (settings : Option JWTSettings) (authorization : String) :
    Response × List Event :=
  match settings with
  | none => (Response.common false "JWT authentication is not enabled", [])
  | some jwt =>
    if jwt.Enabled = false then (Response.common false "JWT authentication is not enabled", [])
    else if authorization = "" then (Response.common false "Missing JWT token", [])
    else authResponse (Authenticate env (jwtAuthConfig jwt) (jwtCredentials authorization))

/-- Settings with JWT login switched on. -/
def jwtSettings : JWTSettings where
  Enabled := true
  Issuer := "https://issuer.example.com"
  Audience := "plugnmeet"
  Key := "PEM"

/-- Library answers that repeat the token they were asked to parse. -/
def echoEnv : Env :=
  { jwtEnv (.error "error in cryptographic primitive") with
    ParseSigned := fun s => .error ("cannot parse [" ++ s ++ "]") }


/-- The first value of the last attribute in the list whose name satisfies `p`
and which has a value at all. -/
def lastValued (p : String → Bool) : List SAMLAttribute → Option String
  | [] => none
  | attr :: rest =>
    match lastValued p rest with
    | some v => some v
    | none => if p attr.Name then attr.Values.head? else none

/-- Library answers for one SAML response: the text `encoded` decodes to the
document `xml`, which unmarshals to `response`. -/
def parsedSAMLEnv (encoded xml : String) (response : SAMLResponse) : Env :=
  { offlineEnv with
    DecodeString := fun s =>
      if s = encoded then .ok xml else .error "illegal base64 data at input byte 0"
    Unmarshal := fun x => if x = xml then .ok response else .error "EOF" }

/-- The document of `aliceResponse`. -/
def aliceResponseXML : String :=
  "<Response><Assertion><Subject><NameID>alice</NameID></Subject><AttributeStatement><Attribute Name=\"mail\"><AttributeValue>alice@example.com</AttributeValue><AttributeValue>a@example.com</AttributeValue></Attribute><Attribute Name=\"groups\"></Attribute><Attribute Name=\"mail\"><AttributeValue>alice@example.org</AttributeValue></Attribute><Attribute Name=\"Email\"><AttributeValue>ALICE@EXAMPLE.COM</AttributeValue></Attribute></AttributeStatement></Assertion></Response>"

/-- The base64 text of `aliceResponseXML`. -/
def aliceResponseBase64 : String :=
  "PFJlc3BvbnNlPjxBc3NlcnRpb24+PFN1YmplY3Q+PE5hbWVJRD5hbGljZTwvTmFtZUlEPjwvU3ViamVjdD48QXR0cmlidXRlU3RhdGVtZW50PjxBdHRyaWJ1dGUgTmFtZT0ibWFpbCI+PEF0dHJpYnV0ZVZhbHVlPmFsaWNlQGV4YW1wbGUuY29tPC9BdHRyaWJ1dGVWYWx1ZT48QXR0cmlidXRlVmFsdWU+YUBleGFtcGxlLmNvbTwvQXR0cmlidXRlVmFsdWU+PC9BdHRyaWJ1dGU+PEF0dHJpYnV0ZSBOYW1lPSJncm91cHMiPjwvQXR0cmlidXRlPjxBdHRyaWJ1dGUgTmFtZT0ibWFpbCI+PEF0dHJpYnV0ZVZhbHVlPmFsaWNlQGV4YW1wbGUub3JnPC9BdHRyaWJ1dGVWYWx1ZT48L0F0dHJpYnV0ZT48QXR0cmlidXRlIE5hbWU9IkVtYWlsIj48QXR0cmlidXRlVmFsdWU+QUxJQ0VARVhBTVBMRS5DT008L0F0dHJpYnV0ZVZhbHVlPjwvQXR0cmlidXRlPjwvQXR0cmlidXRlU3RhdGVtZW50PjwvQXNzZXJ0aW9uPjwvUmVzcG9uc2U+"

/-- A response for `alice` with a mail address, a second mail address, an
attribute `Email` and an attribute `groups` without any value. -/
def aliceResponse : SAMLResponse where
  NameID := "alice"
  Attributes :=
    [{ Name := "mail", Values := ["alice@example.com", "a@example.com"] },
     { Name := "groups", Values := [] },
     { Name := "mail", Values := ["alice@example.org"] },
     { Name := "Email", Values := ["ALICE@EXAMPLE.COM"] }]


/-- The string value of the last entry in the list whose key satisfies `p` and
whose value is a string. -/
def lastString (p : String → Bool) : List (String × JSONValue) → Option String
  | [] => none
  | (key, value) :: rest =>
    match lastString p rest with
    | some v => some v
    | none =>
      if p key then
        match value with
        | JSONValue.str s => some s
        | _ => none
      else none


/-- The payload entries of a token that carries both a `name` and a `username`
claim, with different values. -/
def twoNamesClaims : List (String × JSONValue) :=
  [("sub", JSONValue.str "alice"), ("name", JSONValue.str "Alice"),
   ("username", JSONValue.str "alice01")]

/-- The library answers of `jwtEnv` in a run in which the `range` over the
claims map happens to visit the entries in the opposite order. -/
def reversedRangeEnv (verified : Except String (Claims × List (String × JSONValue))) : Env :=
  { jwtEnv verified with rangeOrder := List.reverse }

end MultiAuth

/-!
# plugNmeet-server: attention statistics

A shallow embedding of `GetUserAttentionStats` in
`pkg/services/db/room_analytic_info.go`. The query is a parameter; `int64`
arithmetic wraps around; `AttentionRate`, a `float64` in the code, is kept as
the exact quotient of the two integers the code converts and divides.
-/

namespace DBService

/-- The `int64` that a computation with the exact result `x` yields. -/
def wrap64 (x : Int) : Int :=
  (x + 9223372036854775808) % 18446744073709551616 - 9223372036854775808

/-- The type `dbmodels.AttentionTracking`. -/
structure AttentionTracking where
  Id : Int
  RoomId : String
  UserId : String
  IsActive : Bool
  Timestamp : Int
deriving DecidableEq, Repr

/-- The type `dbmodels.UserAttentionStats`. -/
structure UserAttentionStats where
  RoomId : String
  UserId : String
  TotalActiveTime : Int
  TotalPassiveTime : Int
  LastActiveTime : Int
  AttentionRate : ℚ
deriving DecidableEq, Repr

/-- The three variables the loop of `GetUserAttentionStats` updates. -/
structure Totals where
  totalActiveTime : Int
  totalPassiveTime : Int
  lastActiveTime : Int
deriving DecidableEq, Repr

/-- The body of the loop `for i, record := range records`: `previous` is
`records[i-1]`, and `none` when `i = 0`. -/
def attentionStep (previous : Option AttentionTracking) (record : AttentionTracking)
    (totals : Totals) : Totals :=
  if record.IsActive then
    let totals := { totals with lastActiveTime := record.Timestamp }
    match previous with
    | none => totals
    | some prev =>
      let timeDiff := wrap64 (record.Timestamp - prev.Timestamp)
      if prev.IsActive then
        { totals with totalActiveTime := wrap64 (totals.totalActiveTime + timeDiff) }
      else
        { totals with totalPassiveTime := wrap64 (totals.totalPassiveTime + timeDiff) }
  else totals

/-- The loop `for i, record := range records`, entered at index `i` with
`previous = records[i-1]`. -/
def attentionLoop : Option AttentionTracking → List AttentionTracking → Totals → Totals
  | _, [], totals => totals
  | previous, record :: rest, totals =>
    attentionLoop (some record) rest (attentionStep previous record totals)

/-- The method `GetUserAttentionStats`; `find` is the query for the records of a
user in a room ordered by `timestamp ASC`, and its error. -/
def GetUserAttentionStats (find : String → String → Except String (List AttentionTracking))
    (roomId userId : String) : Except String UserAttentionStats :=
  match find roomId userId with
  | .error err => .error err
  | .ok [] =>
    .ok
      { RoomId := roomId
        UserId := userId
        TotalActiveTime := 0
        TotalPassiveTime := 0
        LastActiveTime := 0
        AttentionRate := 0 }
  | .ok records =>
    let totals := attentionLoop none records
      { totalActiveTime := 0, totalPassiveTime := 0, lastActiveTime := 0 }
    let totalTime := wrap64 (totals.totalActiveTime + totals.totalPassiveTime)
    let attentionRate : ℚ :=
      if totalTime > 0 then (totals.totalActiveTime : ℚ) / (totalTime : ℚ) else 0
    .ok
      { RoomId := roomId
        UserId := userId
        TotalActiveTime := totals.totalActiveTime
        TotalPassiveTime := totals.totalPassiveTime
        LastActiveTime := totals.lastActiveTime
        AttentionRate := attentionRate }

/-- The timestamp of the last active record of the list, 0 when none is active. -/
def lastActiveTimestamp (records : List AttentionTracking) : Int :=
  match (records.filter (fun r => r.IsActive)).getLast? with
  | some r => r.Timestamp
  | none => 0

/-- A record of `alice` in the room `room-1`. -/
def tracked (isActive : Bool) (timestamp : Int) : AttentionTracking where
  Id := 0
  RoomId := "room-1"
  UserId := "alice"
  IsActive := isActive
  Timestamp := timestamp

/-- A query that answers with `records`. -/
def findRecords (records : List AttentionTracking) :
    String → String → Except String (List AttentionTracking) :=
  fun _ _ => .ok records

/-- Five records of `alice`: active at 100 and 160, inactive at 200, active at
230, inactive at 300. -/
def aliceRecords : List AttentionTracking :=
  [tracked true 100, tracked true 160, tracked false 200, tracked true 230, tracked false 300]

end DBService

/-! # Theorems -/

namespace DBService

/-! ## Lemmas on the loop -/

theorem wrap64_of_fits (x : Int) (hlo : -9223372036854775808 ≤ x)
    (hhi : x < 9223372036854775808) : wrap64 x = x := by
  unfold wrap64
  omega

theorem attentionStep_lastActiveTime (previous : Option AttentionTracking)
    (record : AttentionTracking) (totals : Totals) :
    (attentionStep previous record totals).lastActiveTime =
      if record.IsActive then record.Timestamp else totals.lastActiveTime := by
  unfold attentionStep
  by_cases h : record.IsActive = true
  · cases previous with
    | none => simp [h]
    | some prev => by_cases hp : prev.IsActive = true <;> simp [h, hp]
  · simp [h]

theorem attentionLoop_lastActiveTime (records : List AttentionTracking)
    (previous : Option AttentionTracking) (totals : Totals) :
    (attentionLoop previous records totals).lastActiveTime =
      match (records.filter (fun r => r.IsActive)).getLast? with
      | some r => r.Timestamp
      | none => totals.lastActiveTime := by
  induction records generalizing previous totals with
  | nil => rfl
  | cons record rest ih =>
    simp only [attentionLoop, ih, attentionStep_lastActiveTime]
    cases hactive : record.IsActive with
    | false => simp [List.filter, hactive]
    | true =>
      simp only [List.filter, hactive, List.getLast?_cons]
      cases (List.filter (fun r => r.IsActive) rest).getLast? <;> simp

theorem attentionStep_bounds (prev record : AttentionTracking) (totals : Totals) (lo hi : Int)
    (hprev : lo ≤ prev.Timestamp) (hle : prev.Timestamp ≤ record.Timestamp)
    (hhi : record.Timestamp ≤ hi) (hspan : hi - lo < 9223372036854775808)
    (hactive : 0 ≤ totals.totalActiveTime) (hpassive : 0 ≤ totals.totalPassiveTime)
    (hsum : totals.totalActiveTime + totals.totalPassiveTime ≤ prev.Timestamp - lo) :
    0 ≤ (attentionStep (some prev) record totals).totalActiveTime ∧
      0 ≤ (attentionStep (some prev) record totals).totalPassiveTime ∧
      (attentionStep (some prev) record totals).totalActiveTime +
        (attentionStep (some prev) record totals).totalPassiveTime ≤ record.Timestamp - lo := by
  have hdiff : wrap64 (record.Timestamp - prev.Timestamp) = record.Timestamp - prev.Timestamp :=
    wrap64_of_fits _ (by omega) (by omega)
  have hA := wrap64_of_fits (totals.totalActiveTime + (record.Timestamp - prev.Timestamp))
    (by omega) (by omega)
  have hP := wrap64_of_fits (totals.totalPassiveTime + (record.Timestamp - prev.Timestamp))
    (by omega) (by omega)
  cases hr : record.IsActive <;> cases hp : prev.IsActive <;>
    simp only [attentionStep, hr, hp, hdiff, hA, hP, Bool.false_eq_true, if_true, if_false] <;>
    refine ⟨?_, ?_, ?_⟩ <;> omega

theorem attentionLoop_bounds (rest : List AttentionTracking) (prev : AttentionTracking)
    (totals : Totals) (lo hi : Int)
    (hsorted : (prev :: rest).Pairwise (fun a b => a.Timestamp ≤ b.Timestamp))
    (hprev : lo ≤ prev.Timestamp) (hhi : ∀ r ∈ prev :: rest, r.Timestamp ≤ hi)
    (hspan : hi - lo < 9223372036854775808)
    (hactive : 0 ≤ totals.totalActiveTime) (hpassive : 0 ≤ totals.totalPassiveTime)
    (hsum : totals.totalActiveTime + totals.totalPassiveTime ≤ prev.Timestamp - lo) :
    0 ≤ (attentionLoop (some prev) rest totals).totalActiveTime ∧
      0 ≤ (attentionLoop (some prev) rest totals).totalPassiveTime ∧
      (attentionLoop (some prev) rest totals).totalActiveTime +
        (attentionLoop (some prev) rest totals).totalPassiveTime ≤ hi - lo := by
  induction rest generalizing prev totals with
  | nil =>
    have := hhi prev (List.mem_cons_self _ _)
    exact ⟨hactive, hpassive, by simp only [attentionLoop]; omega⟩
  | cons record rest ih =>
    have hle : prev.Timestamp ≤ record.Timestamp :=
      (List.pairwise_cons.mp hsorted).1 record (List.mem_cons_self _ _)
    have hrec : record.Timestamp ≤ hi := hhi record (by simp)
    obtain ⟨h1, h2, h3⟩ := attentionStep_bounds prev record totals lo hi hprev hle hrec hspan
      hactive hpassive hsum
    simp only [attentionLoop]
    exact ih record _ (List.pairwise_cons.mp hsorted).2 (by omega)
      (fun r hr => hhi r (List.mem_cons_of_mem _ hr)) h1 h2 h3

theorem le_last_of_sorted (records : List AttentionTracking) (last : AttentionTracking)
    (hsorted : records.Pairwise (fun a b => a.Timestamp ≤ b.Timestamp))
    (hlast : records.getLast? = some last) : ∀ r ∈ records, r.Timestamp ≤ last.Timestamp := by
  obtain ⟨front, rfl⟩ := List.getLast?_eq_some_iff.mp hlast
  intro r hr
  rcases List.mem_append.mp hr with hfront | hend
  · exact (List.pairwise_append.mp hsorted).2.2 r hfront last (by simp)
  · simp only [List.mem_singleton] at hend
    rw [hend]

/-! ## C19: which gaps are counted -/

/-- A record that is not active changes nothing: the gap that ends in it is
added to neither total. -/
theorem attentionStep_inactive (previous : Option AttentionTracking)
    (record : AttentionTracking) (totals : Totals) (h : record.IsActive = false) :
    attentionStep previous record totals = totals := by
  simp [attentionStep, h]

/-- Claim C19. The code at the failing input: `alice` is recorded active at 100
and inactive at 160. The gap of 60 after the active record belongs in
`TotalActiveTime`, and the two totals should add up to 160 - 100; both are 0,
because a gap is only looked at when the record that ends it is active. -/
theorem GetUserAttentionStats_drops_gap_before_inactive :
    GetUserAttentionStats (findRecords [tracked true 100, tracked false 160]) "room-1" "alice" =
      .ok
        { RoomId := "room-1"
          UserId := "alice"
          TotalActiveTime := 0
          TotalPassiveTime := 0
          LastActiveTime := 100
          AttentionRate := 0 } := by
  rfl

/-! ## C20: bounds on the statistics -/

/-- Claim C20, counterexample. Two records in ascending order whose timestamps
are 2^63 + 2^62 apart: the difference does not fit in an `int64`, wraps around,
and `TotalPassiveTime` is negative. -/
theorem GetUserAttentionStats_negative_total :
    GetUserAttentionStats
        (findRecords [tracked false (-9223372036854775808), tracked true 4611686018427387904])
        "room-1" "alice" =
      .ok
        { RoomId := "room-1"
          UserId := "alice"
          TotalActiveTime := 0
          TotalPassiveTime := -4611686018427387904
          LastActiveTime := 4611686018427387904
          AttentionRate := 0 } := by
  rfl

/-- Claim C20, amended. For every list of records in ascending timestamp order
whose last timestamp is less than 2^63 above the first (as it is for Unix
times): `TotalActiveTime` and `TotalPassiveTime` are non-negative, their sum
is at most the last timestamp minus the first, `LastActiveTime` is the
timestamp of the last active record and 0 when no record is active, and
`AttentionRate`, as an exact ratio, is `TotalActiveTime` divided by the sum of
the two totals when that sum is positive and 0 otherwise, so it lies between 0
and 1; for the empty list all four values are 0. -/
theorem GetUserAttentionStats_bounds
    (find : String → String → Except String (List AttentionTracking))
    (roomId userId : String) (records : List AttentionTracking)
    (hfind : find roomId userId = .ok records)
    (hsorted : records.Pairwise (fun a b => a.Timestamp ≤ b.Timestamp))
    (hspan : ∀ first last, records.head? = some first → records.getLast? = some last →
      last.Timestamp - first.Timestamp < 9223372036854775808) :
    ∃ stats, GetUserAttentionStats find roomId userId = .ok stats ∧
      0 ≤ stats.TotalActiveTime ∧ 0 ≤ stats.TotalPassiveTime ∧
      (∀ first last, records.head? = some first → records.getLast? = some last →
        stats.TotalActiveTime + stats.TotalPassiveTime ≤ last.Timestamp - first.Timestamp) ∧
      stats.LastActiveTime = lastActiveTimestamp records ∧
      stats.AttentionRate =
        (if 0 < stats.TotalActiveTime + stats.TotalPassiveTime then
          (stats.TotalActiveTime : ℚ) /
            ((stats.TotalActiveTime + stats.TotalPassiveTime : Int) : ℚ)
        else 0) ∧
      0 ≤ stats.AttentionRate ∧ stats.AttentionRate ≤ 1 ∧
      (records = [] →
        stats.TotalActiveTime = 0 ∧ stats.TotalPassiveTime = 0 ∧
          stats.LastActiveTime = 0 ∧ stats.AttentionRate = 0) := by
  cases records with
  | nil =>
    refine ⟨
      { RoomId := roomId
        UserId := userId
        TotalActiveTime := 0
        TotalPassiveTime := 0
        LastActiveTime := 0
        AttentionRate := 0 },
      by simp only [GetUserAttentionStats, hfind], ?_⟩
    simp [lastActiveTimestamp]
  | cons first rest =>
    obtain ⟨last, hlast⟩ : ∃ last, (first :: rest).getLast? = some last :=
      ⟨_, List.getLast?_eq_getLast _ (List.cons_ne_nil _ _)⟩
    have hsp := hspan first last rfl hlast
    have hhi := le_last_of_sorted _ last hsorted hlast
    have hfirst : (attentionStep none first
        { totalActiveTime := 0, totalPassiveTime := 0, lastActiveTime := 0 }).totalActiveTime = 0
        ∧ (attentionStep none first
        { totalActiveTime := 0, totalPassiveTime := 0, lastActiveTime := 0 }).totalPassiveTime
          = 0 := by
      cases h : first.IsActive <;> simp [attentionStep, h]
    obtain ⟨hA, hP, hS⟩ := attentionLoop_bounds rest first
      (attentionStep none first
        { totalActiveTime := 0, totalPassiveTime := 0, lastActiveTime := 0 })
      first.Timestamp last.Timestamp hsorted (le_refl _) hhi hsp
      (by rw [hfirst.1]) (by rw [hfirst.2]) (by rw [hfirst.1, hfirst.2]; omega)
    have hloop : attentionLoop none (first :: rest)
        { totalActiveTime := 0, totalPassiveTime := 0, lastActiveTime := 0 } =
        attentionLoop (some first) rest (attentionStep none first
          { totalActiveTime := 0, totalPassiveTime := 0, lastActiveTime := 0 }) := rfl
    rw [← hloop] at hA hP hS
    have hL := attentionLoop_lastActiveTime (first :: rest) none
      { totalActiveTime := 0, totalPassiveTime := 0, lastActiveTime := 0 }
    have heq : GetUserAttentionStats find roomId userId = .ok
        { RoomId := roomId
          UserId := userId
          TotalActiveTime := (attentionLoop none (first :: rest)
            { totalActiveTime := 0, totalPassiveTime := 0, lastActiveTime := 0 }).totalActiveTime
          TotalPassiveTime := (attentionLoop none (first :: rest)
            { totalActiveTime := 0, totalPassiveTime := 0, lastActiveTime := 0 }).totalPassiveTime
          LastActiveTime := (attentionLoop none (first :: rest)
            { totalActiveTime := 0, totalPassiveTime := 0, lastActiveTime := 0 }).lastActiveTime
          AttentionRate :=
            if wrap64 ((attentionLoop none (first :: rest)
                { totalActiveTime := 0, totalPassiveTime := 0, lastActiveTime := 0 }).totalActiveTime
              + (attentionLoop none (first :: rest)
                { totalActiveTime := 0, totalPassiveTime := 0, lastActiveTime := 0
                  }).totalPassiveTime) > 0 then
              ((attentionLoop none (first :: rest)
                { totalActiveTime := 0, totalPassiveTime := 0, lastActiveTime := 0
                  }).totalActiveTime : ℚ) /
              (wrap64 ((attentionLoop none (first :: rest)
                { totalActiveTime := 0, totalPassiveTime := 0, lastActiveTime := 0 }).totalActiveTime
              + (attentionLoop none (first :: rest)
                { totalActiveTime := 0, totalPassiveTime := 0, lastActiveTime := 0
                  }).totalPassiveTime) : ℚ)
            else 0 } := by
      simp only [GetUserAttentionStats, hfind]
    generalize attentionLoop none (first :: rest)
      { totalActiveTime := 0, totalPassiveTime := 0, lastActiveTime := 0 } = totals
      at hA hP hS hL heq
    have hwrap : wrap64 (totals.totalActiveTime + totals.totalPassiveTime) =
        totals.totalActiveTime + totals.totalPassiveTime :=
      wrap64_of_fits _ (by omega) (by omega)
    rw [hwrap] at heq
    refine ⟨_, heq, hA, hP, ?_, ?_, ?_, ?_, ?_, ?_⟩
    · intro f l hf hl
      simp only [List.head?_cons, Option.some.injEq] at hf
      rw [hlast] at hl
      cases hl
      rw [← hf]
      exact hS
    · rw [hL]
      rfl
    · rfl
    · dsimp only
      split
      · exact div_nonneg (by exact_mod_cast hA) (by exact_mod_cast (by omega : (0 : Int) ≤
          totals.totalActiveTime + totals.totalPassiveTime))
      · exact le_refl _
    · dsimp only
      split
      · rename_i hpos
        have hposq : (0 : ℚ) < ((totals.totalActiveTime + totals.totalPassiveTime : Int) : ℚ) := by
          exact_mod_cast hpos
        rw [div_le_one hposq]
        exact_mod_cast (by omega : totals.totalActiveTime ≤
          totals.totalActiveTime + totals.totalPassiveTime)
      · exact zero_le_one
    · intro h
      cases h

/-- The five records of `alice`, 200 seconds from the first to the last. -/
theorem GetUserAttentionStats_bounds_witness :
    ∃ stats, GetUserAttentionStats (findRecords aliceRecords) "room-1" "alice" = .ok stats ∧
      0 ≤ stats.TotalActiveTime ∧ 0 ≤ stats.TotalPassiveTime ∧
      (∀ first last, aliceRecords.head? = some first → aliceRecords.getLast? = some last →
        stats.TotalActiveTime + stats.TotalPassiveTime ≤ last.Timestamp - first.Timestamp) ∧
      stats.LastActiveTime = lastActiveTimestamp aliceRecords ∧
      stats.AttentionRate =
        (if 0 < stats.TotalActiveTime + stats.TotalPassiveTime then
          (stats.TotalActiveTime : ℚ) /
            ((stats.TotalActiveTime + stats.TotalPassiveTime : Int) : ℚ)
        else 0) ∧
      0 ≤ stats.AttentionRate ∧ stats.AttentionRate ≤ 1 ∧
      (aliceRecords = [] →
        stats.TotalActiveTime = 0 ∧ stats.TotalPassiveTime = 0 ∧
          stats.LastActiveTime = 0 ∧ stats.AttentionRate = 0) :=
  GetUserAttentionStats_bounds (findRecords aliceRecords) "room-1" "alice" aliceRecords rfl
    (by decide)
    (fun first last hfirst hlast => by
      cases hfirst
      cases hlast
      decide)

/-- For the five records of `alice` the totals are 60 and 30 of the 200
seconds, the last active time is 230 and the rate is 2/3. -/
theorem GetUserAttentionStats_aliceRecords :
    GetUserAttentionStats (findRecords aliceRecords) "room-1" "alice" =
      .ok
        { RoomId := "room-1"
          UserId := "alice"
          TotalActiveTime := 60
          TotalPassiveTime := 30
          LastActiveTime := 230
          AttentionRate := 2 / 3 } := by
  have h : GetUserAttentionStats (findRecords aliceRecords) "room-1" "alice" =
      .ok
        { RoomId := "room-1"
          UserId := "alice"
          TotalActiveTime := 60
          TotalPassiveTime := 30
          LastActiveTime := 230
          AttentionRate := (60 : ℚ) / ((90 : Int) : ℚ) } := rfl
  rw [h]
  norm_num

end DBService

namespace MultiAuth

/-! ## Routing lemmas -/

theorem Authenticate_eq_oauth2 (env : Env) (config : AuthConfig) (credentials : StringMap)
    (h : config.Method = OAuth2Auth) :
    Authenticate env config credentials = authenticateOAuth2 env config.OAuth2 credentials := by
  simp [Authenticate, h]

theorem Authenticate_eq_saml (env : Env) (config : AuthConfig) (credentials : StringMap)
    (h : config.Method = SAMLAuth) :
    Authenticate env config credentials = authenticateSAML env config.SAML credentials := by
  simp [Authenticate, h, OAuth2Auth, SAMLAuth]

theorem Authenticate_eq_ldap (env : Env) (config : AuthConfig) (credentials : StringMap)
    (h : config.Method = LDAPAuth) :
    Authenticate env config credentials = authenticateLDAP env config.LDAP credentials := by
  simp [Authenticate, h, OAuth2Auth, SAMLAuth, LDAPAuth]

theorem Authenticate_eq_jwt (env : Env) (config : AuthConfig) (credentials : StringMap)
    (h : config.Method = JWTTokenAuth) :
    Authenticate env config credentials = authenticateJWT env config.JWT credentials := by
  simp [Authenticate, h, OAuth2Auth, SAMLAuth, LDAPAuth, JWTTokenAuth]

/-! ## C4: routing -/

/-- Claim C4. `Authenticate` only routes on `config.Method`: for the tags
`oauth2`, `saml`, `ldap` and `jwt_token` it is exactly the matching backend run
on that tag's branch of the configuration and the same credentials, and for
every other tag it returns the unsupported-method error with a nil result and
causes no event at all, whatever the environment. -/
theorem Authenticate_routes (env : Env) (config : AuthConfig) (credentials : StringMap) :
    (config.Method = "oauth2" →
      Authenticate env config credentials = authenticateOAuth2 env config.OAuth2 credentials) ∧
    (config.Method = "saml" →
      Authenticate env config credentials = authenticateSAML env config.SAML credentials) ∧
    (config.Method = "ldap" →
      Authenticate env config credentials = authenticateLDAP env config.LDAP credentials) ∧
    (config.Method = "jwt_token" →
      Authenticate env config credentials = authenticateJWT env config.JWT credentials) ∧
    (config.Method ≠ "oauth2" → config.Method ≠ "saml" → config.Method ≠ "ldap" →
      config.Method ≠ "jwt_token" →
      Authenticate env config credentials =
        (Outcome.returned none
          (some ("unsupported authentication method: " ++ config.Method)), [])) := by
  refine ⟨?_, ?_, ?_, ?_, ?_⟩
  · intro h
    simp [Authenticate, OAuth2Auth, h]
  · intro h
    simp [Authenticate, OAuth2Auth, SAMLAuth, h]
  · intro h
    simp [Authenticate, OAuth2Auth, SAMLAuth, LDAPAuth, h]
  · intro h
    simp [Authenticate, OAuth2Auth, SAMLAuth, LDAPAuth, JWTTokenAuth, h]
  · intro h1 h2 h3 h4
    simp [Authenticate, OAuth2Auth, SAMLAuth, LDAPAuth, JWTTokenAuth, h1, h2, h3, h4, fail]

/-- The reserved tag `api_key` and the empty tag are refused without any event. -/
theorem Authenticate_routes_witness :
    Authenticate offlineEnv (emptyConfig APIKeyAuth) aliceCredentials =
        (Outcome.returned none (some "unsupported authentication method: api_key"), []) ∧
      Authenticate offlineEnv (emptyConfig "") aliceCredentials =
        (Outcome.returned none (some "unsupported authentication method: "), []) :=
  ⟨(Authenticate_routes offlineEnv (emptyConfig APIKeyAuth) aliceCredentials).2.2.2.2
      (by decide) (by decide) (by decide) (by decide),
   (Authenticate_routes offlineEnv (emptyConfig "") aliceCredentials).2.2.2.2
      (by decide) (by decide) (by decide) (by decide)⟩

/-! ## C6: OAuth2 without a code -/

/-- Claim C6. For every OAuth2 configuration, every environment and every
credentials map without the key `code`, `Authenticate` with method `oauth2`
returns the error `missing authorization code` with a nil result, and no event
happened: neither the token exchange nor the user-info request was made. -/
theorem Authenticate_oauth2_missing_code (env : Env) (config : AuthConfig)
    (credentials : StringMap) (hmethod : config.Method = OAuth2Auth)
    (hcode : mapGet credentials "code" = none) :
    Authenticate env config credentials =
      (Outcome.returned none (some "missing authorization code"), []) := by
  simp [Authenticate_eq_oauth2 env config credentials hmethod, authenticateOAuth2, hcode, fail]

/-- The empty credentials map, against a provider that would answer. -/
theorem Authenticate_oauth2_missing_code_witness :
    Authenticate (directoryEnv []) (emptyConfig OAuth2Auth) [] =
      (Outcome.returned none (some "missing authorization code"), []) :=
  Authenticate_oauth2_missing_code (directoryEnv []) (emptyConfig OAuth2Auth) [] rfl rfl

/-! ## C8: the distinguished name of the user bind -/

/-- Claim C8. In every run of `authenticateLDAP` that reaches the user bind (the
connection opens, both credentials are present and, when `bind_dn` is set, the
service bind succeeds), the bind that follows is made with the supplied
password and the name `cn=<username>,<base_dn>` when `bind_dn` is empty, and
`uid=<username>,<base_dn>` when it is not. -/
theorem authenticateLDAP_user_dn (env : Env) (config : LDAPConfig) (credentials : StringMap)
    (username password : String)
    (hdial : env.Dial [] (config.Server ++ ":" ++ toString config.Port) = none)
    (hservice : config.BindDN ≠ "" →
      env.Bind [Event.ldapDial (config.Server ++ ":" ++ toString config.Port)]
        config.BindDN config.BindPass = none)
    (huser : mapGet credentials "username" = some username)
    (hpass : mapGet credentials "password" = some password) :
    (config.BindDN = "" →
      ∃ rest, (authenticateLDAP env config credentials).2 =
        [Event.ldapDial (config.Server ++ ":" ++ toString config.Port),
         Event.ldapBind ("cn=" ++ username ++ "," ++ config.BaseDN) password] ++ rest) ∧
    (config.BindDN ≠ "" →
      ∃ rest, (authenticateLDAP env config credentials).2 =
        [Event.ldapDial (config.Server ++ ":" ++ toString config.Port),
         Event.ldapBind config.BindDN config.BindPass,
         Event.ldapBind ("uid=" ++ username ++ "," ++ config.BaseDN) password] ++ rest) := by
  constructor
  · intro hempty
    simp only [authenticateLDAP, hdial, hempty, huser, hpass, ne_eq, not_true_eq_false,
      if_false, if_true, show "cn" ++ "=" = "cn=" from by decide]
    repeat' split
    all_goals exact ⟨_, by simp only [List.append_assoc, List.cons_append, List.nil_append]; rfl⟩
  · intro hset
    have hsvc := hservice hset
    simp only [authenticateLDAP, hdial, hset, hsvc, huser, hpass, ne_eq, not_false_eq_true,
      if_false, if_true]
    repeat' split
    all_goals exact ⟨_, by simp only [List.append_assoc, List.cons_append, List.nil_append]; rfl⟩

/-- The example of the specification: `alice` under `dc=example,dc=com`, without
and with a service account. -/
theorem authenticateLDAP_user_dn_witness :
    (∃ rest, (authenticateLDAP (directoryEnv []) (exampleLDAP "") aliceCredentials).2 =
        [Event.ldapDial "ldap.example.com:389",
         Event.ldapBind "cn=alice,dc=example,dc=com" "wonderland"] ++ rest) ∧
    (∃ rest, (authenticateLDAP (directoryEnv [])
          (exampleLDAP "cn=admin,dc=example,dc=com") aliceCredentials).2 =
        [Event.ldapDial "ldap.example.com:389",
         Event.ldapBind "cn=admin,dc=example,dc=com" "service-secret",
         Event.ldapBind "uid=alice,dc=example,dc=com" "wonderland"] ++ rest) :=
  ⟨(authenticateLDAP_user_dn (directoryEnv []) (exampleLDAP "") aliceCredentials
      "alice" "wonderland" rfl (fun _ => rfl) rfl rfl).1 rfl,
   (authenticateLDAP_user_dn (directoryEnv []) (exampleLDAP "cn=admin,dc=example,dc=com")
      aliceCredentials "alice" "wonderland" rfl (fun _ => rfl) rfl rfl).2 (by decide)⟩

/-! ## C1: SAML assertions are accepted without a signature check -/

theorem samlCopyAttributes_Valid (attrs : List SAMLAttribute) (result : AuthResult) :
    (samlCopyAttributes attrs result).Valid = result.Valid := by
  induction attrs generalizing result with
  | nil => rfl
  | cons attr rest ih =>
    unfold samlCopyAttributes
    split
    · exact ih result
    · simp only [ih]
      split <;> rfl

theorem samlCopyAttributes_UserID (attrs : List SAMLAttribute) (result : AuthResult) :
    (samlCopyAttributes attrs result).UserID = result.UserID := by
  induction attrs generalizing result with
  | nil => rfl
  | cons attr rest ih =>
    unfold samlCopyAttributes
    split
    · exact ih result
    · simp only [ih]
      split <;> rfl

/-- The outcome of `authenticateSAML` does not depend on the configuration: no
field of `SAMLConfig`, `idp_cert` included, is ever read. -/
theorem authenticateSAML_config_irrelevant (env : Env) (c1 c2 : SAMLConfig)
    (credentials : StringMap) :
    authenticateSAML env c1 credentials = authenticateSAML env c2 credentials := rfl

/-- Every response that decodes and unmarshals is accepted as valid for the
subject it names; nothing else is asked of it. -/
theorem authenticateSAML_accepts_every_parsed_response (env : Env) (config : SAMLConfig)
    (credentials : StringMap) (samlResponse decoded : String) (response : SAMLResponse)
    (hcred : mapGet credentials "SAMLResponse" = some samlResponse)
    (hdecode : env.DecodeString samlResponse = .ok decoded)
    (hxml : env.Unmarshal decoded = .ok response) :
    ∃ result, authenticateSAML env config credentials =
        (Outcome.returned (some result) none, []) ∧
      result.Valid = true ∧ result.UserID = response.NameID := by
  refine ⟨samlCopyAttributes response.Attributes
    { UserID := response.NameID, UserName := response.NameID, Email := "", Valid := true,
      Attributes := [], AccessToken := "" }, ?_, ?_, ?_⟩
  · simp [authenticateSAML, hcred, hdecode, hxml, succeed]
  · rw [samlCopyAttributes_Valid]
  · rw [samlCopyAttributes_UserID]

/-- Claim C1. The code at the failing input: a well-formed response that carries
no signature at all is accepted, whatever certificate `idp_cert` holds;
`Authenticate` returns a nil error and a result with `Valid = true` for the
subject named in the response. -/
theorem Authenticate_saml_accepts_unsigned (cert : String) :
    Authenticate samlEnv (samlConfig cert) [("SAMLResponse", unsignedResponseBase64)] =
      (Outcome.returned
        (some
          { UserID := "admin@example.com"
            UserName := "admin@example.com"
            Email := ""
            Attributes := []
            Valid := true
            AccessToken := "" })
        none, []) := by
  rfl

/-! ## C2 and C3: JWT verification -/

theorem jwtCopyClaims_Valid (entries : List (String × JSONValue)) (result : AuthResult) :
    (jwtCopyClaims entries result).Valid = result.Valid := by
  induction entries generalizing result with
  | nil => rfl
  | cons entry rest ih =>
    obtain ⟨key, value⟩ := entry
    cases value <;> simp only [jwtCopyClaims, ih]
    split
    · rfl
    · split <;> rfl

theorem jwtCopyClaims_UserID (entries : List (String × JSONValue)) (result : AuthResult) :
    (jwtCopyClaims entries result).UserID = result.UserID := by
  induction entries generalizing result with
  | nil => rfl
  | cons entry rest ih =>
    obtain ⟨key, value⟩ := entry
    cases value <;> simp only [jwtCopyClaims, ih]
    split
    · rfl
    · split <;> rfl

/-- Whenever the token does not parse, the signature check fails or the
library refuses the verified claims, `Authenticate` returns an error and a nil
result. -/
theorem Authenticate_jwt_error_of_verdict (env : Env) (config : AuthConfig)
    (credentials : StringMap) (tokenString blockBytes : String) (n e : Nat)
    (hmethod : config.Method = JWTTokenAuth)
    (htoken : mapGet credentials "token" = some tokenString)
    (hpem : env.pemDecode config.JWT.Key = some blockBytes)
    (hkey : env.ParsePKIXPublicKey blockBytes = .ok (PublicKey.rsa n e))
    (hrejected :
      (∃ err, env.ParseSigned tokenString = .error err) ∨
      (∃ token err, env.ParseSigned tokenString = .ok token ∧
        env.VerifyClaims token (PublicKey.rsa n e) = .error err) ∨
      (∃ token claims customClaims err, env.ParseSigned tokenString = .ok token ∧
        env.VerifyClaims token (PublicKey.rsa n e) = .ok (claims, customClaims) ∧
        env.Validate claims
          { Issuer := config.JWT.Issuer, Audience := [config.JWT.Audience], Time := env.Now [] }
          = some err)) :
    ∃ msg, (Authenticate env config credentials).1 = Outcome.returned none (some msg) := by
  rcases hrejected with ⟨err, hparse⟩ | ⟨token, err, hparse, hverify⟩ |
    ⟨token, claims, customClaims, err, hparse, hverify, hvalidate⟩
  · exact ⟨"failed to parse JWT token: " ++ err, by
      simp [Authenticate_eq_jwt env config credentials hmethod, authenticateJWT, htoken, hpem,
        hkey, hparse, fail]⟩
  · exact ⟨"failed to verify JWT token: " ++ err, by
      simp [Authenticate_eq_jwt env config credentials hmethod, authenticateJWT, htoken, hpem,
        hkey, hparse, hverify, fail]⟩
  · exact ⟨"JWT token validation failed: " ++ err, by
      simp [Authenticate_eq_jwt env config credentials hmethod, authenticateJWT, htoken, hpem,
        hkey, hparse, hverify, hvalidate, fail]⟩

/-- Whenever the signature check succeeds and the library accepts the verified
claims, `Authenticate` returns a valid result for the `sub` claim. -/
theorem Authenticate_jwt_result_of_verdict (env : Env) (config : AuthConfig)
    (credentials : StringMap) (tokenString blockBytes : String) (n e : Nat)
    (token : JSONWebToken) (claims : Claims) (customClaims : List (String × JSONValue))
    (hmethod : config.Method = JWTTokenAuth)
    (htoken : mapGet credentials "token" = some tokenString)
    (hpem : env.pemDecode config.JWT.Key = some blockBytes)
    (hkey : env.ParsePKIXPublicKey blockBytes = .ok (PublicKey.rsa n e))
    (hparse : env.ParseSigned tokenString = .ok token)
    (hverify : env.VerifyClaims token (PublicKey.rsa n e) = .ok (claims, customClaims))
    (hvalidate :
      env.Validate claims
        { Issuer := config.JWT.Issuer, Audience := [config.JWT.Audience], Time := env.Now [] }
        = none) :
    ∃ result, (Authenticate env config credentials).1 = Outcome.returned (some result) none ∧
      result.Valid = true ∧ result.UserID = claims.Subject := by
  refine ⟨jwtCopyClaims (env.rangeOrder customClaims)
    { UserID := claims.Subject, UserName := "", Email := "", Valid := true, Attributes := [],
      AccessToken := "" }, ?_, ?_, ?_⟩
  · simp [Authenticate_eq_jwt env config credentials hmethod, authenticateJWT, htoken, hpem,
      hkey, hparse, hverify, hvalidate, succeed]
  · rw [jwtCopyClaims_Valid]
  · rw [jwtCopyClaims_UserID]

/-- The claims the library accepts: the issuer is the expected one or none is
expected, every expected audience is among the token's, and with one minute of
leeway the time is not before `nbf`, not after `exp` and not before `iat`. -/
theorem Claims.Validate_eq_none_iff (c : Claims) (e : Expected) :
    c.Validate e = none ↔
      (e.Issuer = "" ∨ e.Issuer = c.Issuer) ∧ (∀ v ∈ e.Audience, v ∈ c.Audience) ∧
        beforeDate (e.Time + DefaultLeeway) c.NotBefore = false ∧
        afterDate (e.Time - DefaultLeeway) c.Expiry = false ∧
        beforeDate (e.Time + DefaultLeeway) c.IssuedAt = false := by
  simp only [Claims.Validate, Claims.ValidateWithLeeway]
  by_cases h1 : e.Issuer ≠ "" ∧ e.Issuer ≠ c.Issuer
  · rw [if_pos h1]
    constructor
    · intro h
      cases h
    · rintro ⟨h | h, -⟩
      · exact absurd h h1.1
      · exact absurd h h1.2
  · rw [if_neg h1]
    have h1' : e.Issuer = "" ∨ e.Issuer = c.Issuer := by
      by_contra hc
      rw [not_or] at hc
      exact h1 hc
    by_cases h2 : ∀ v ∈ e.Audience, v ∈ c.Audience
    · rw [if_neg (not_not.mpr h2)]
      cases h3 : beforeDate (e.Time + DefaultLeeway) c.NotBefore <;>
        cases h4 : afterDate (e.Time - DefaultLeeway) c.Expiry <;>
        cases h5 : beforeDate (e.Time + DefaultLeeway) c.IssuedAt <;>
        simp [h1']
      exact h2
    · rw [if_pos h2]
      constructor
      · intro h
        cases h
      · rintro ⟨-, h, -⟩
        exact absurd h h2

/-- Claim C2, counterexample. Two tokens the claim says are refused come back
with `Valid = true`. The first was issued by `https://evil.example.org` and is
checked against a configuration whose issuer is empty: the issuer differs from
`config.issuer`, but the library skips the issuer check for an empty expected
issuer. The second expired 30 seconds before the current time: the library
allows one minute of leeway. -/
theorem Authenticate_jwt_accepts_other_issuer_and_expired :
    (Authenticate (jwtEnv (.ok (aliceClaims "https://evil.example.org", aliceCustomClaims)))
        { jwtConfig with JWT := { Issuer := "", Audience := "plugnmeet", Key := "PEM" } }
        [("token", "e30.e30.c2ln")]).1 =
      Outcome.returned
        (some
          { UserID := "alice"
            UserName := "Alice"
            Email := "alice@example.com"
            Attributes :=
              [("sub", "alice"), ("name", "Alice"), ("email", "alice@example.com")]
            Valid := true
            AccessToken := "" })
        none ∧
    (Authenticate
        (jwtEnv (.ok ({ aliceClaims "https://issuer.example.com" with
          Expiry := some 1699999970 }, aliceCustomClaims)))
        jwtConfig [("token", "e30.e30.c2ln")]).1 =
      Outcome.returned
        (some
          { UserID := "alice"
            UserName := "Alice"
            Email := "alice@example.com"
            Attributes :=
              [("sub", "alice"), ("name", "Alice"), ("email", "alice@example.com")]
            Valid := true
            AccessToken := "" })
        none := by
  constructor <;> rfl

/-- Claim C2, amended. With the claim validation of go-jose, for every JWT
configuration whose key parses as an RSA public key and every token: when the
token does not parse, when signature verification against that key fails,
when `config.issuer` is not empty and the issuer of the token differs from it,
when the audience of the token does not contain `config.audience`, when the
current time is more than one minute before `nbf`, or when it is more than
one minute after `exp`, `Authenticate` with method `jwt_token` returns an
error and a nil result. -/
theorem Authenticate_jwt_refuses (env : Env) (config : AuthConfig) (credentials : StringMap)
    (tokenString blockBytes : String) (n e : Nat)
    (hlibrary : env.Validate = Claims.Validate)
    (hmethod : config.Method = JWTTokenAuth)
    (htoken : mapGet credentials "token" = some tokenString)
    (hpem : env.pemDecode config.JWT.Key = some blockBytes)
    (hkey : env.ParsePKIXPublicKey blockBytes = .ok (PublicKey.rsa n e))
    (hrefused :
      (∃ err, env.ParseSigned tokenString = .error err) ∨
      (∃ token err, env.ParseSigned tokenString = .ok token ∧
        env.VerifyClaims token (PublicKey.rsa n e) = .error err) ∨
      (∃ token claims customClaims, env.ParseSigned tokenString = .ok token ∧
        env.VerifyClaims token (PublicKey.rsa n e) = .ok (claims, customClaims) ∧
        ((config.JWT.Issuer ≠ "" ∧ claims.Issuer ≠ config.JWT.Issuer) ∨
          config.JWT.Audience ∉ claims.Audience ∨
          (∃ nbf, claims.NotBefore = some nbf ∧
            env.Now [] + DefaultLeeway < NumericDateTime nbf) ∨
          (∃ exp, claims.Expiry = some exp ∧
            NumericDateTime exp < env.Now [] - DefaultLeeway)))) :
    ∃ msg, (Authenticate env config credentials).1 = Outcome.returned none (some msg) := by
  apply Authenticate_jwt_error_of_verdict env config credentials tokenString blockBytes n e
    hmethod htoken hpem hkey
  rcases hrefused with h | h | ⟨token, claims, customClaims, hparse, hverify, hbad⟩
  · exact Or.inl h
  · exact Or.inr (Or.inl h)
  · refine Or.inr (Or.inr ?_)
    cases hv : env.Validate claims
      { Issuer := config.JWT.Issuer, Audience := [config.JWT.Audience], Time := env.Now [] } with
    | some err => exact ⟨token, claims, customClaims, err, hparse, hverify, hv⟩
    | none =>
      exfalso
      rw [hlibrary] at hv
      obtain ⟨hiss, haud, hnbf, hexp, -⟩ := (Claims.Validate_eq_none_iff _ _).mp hv
      rcases hbad with ⟨hne, hdiff⟩ | haud' | ⟨nbf, hsome, hlt⟩ | ⟨exp, hsome, hlt⟩
      · rcases hiss with h | h
        · exact hne h
        · exact hdiff h.symm
      · exact haud' (haud _ (List.mem_singleton.mpr rfl))
      · rw [hsome] at hnbf
        simp only [beforeDate, decide_eq_false_iff_not] at hnbf
        exact hnbf hlt
      · rw [hsome] at hexp
        simp only [afterDate, decide_eq_false_iff_not] at hexp
        exact hexp hlt

/-- A token whose signature verifies but whose issuer is not the configured
one is refused. -/
theorem Authenticate_jwt_refuses_witness :
    ∃ msg, (Authenticate (jwtEnv (.ok (aliceClaims "https://evil.example.org", aliceCustomClaims)))
      jwtConfig [("token", "e30.e30.c2ln")]).1 = Outcome.returned none (some msg) :=
  Authenticate_jwt_refuses (jwtEnv (.ok (aliceClaims "https://evil.example.org", aliceCustomClaims)))
    jwtConfig [("token", "e30.e30.c2ln")] "e30.e30.c2ln" "der-bytes" 3233 17 rfl rfl rfl rfl rfl
    (Or.inr (Or.inr ⟨{ compact := "e30.e30.c2ln" }, aliceClaims "https://evil.example.org",
      aliceCustomClaims, rfl, rfl, Or.inl ⟨by decide, by decide⟩⟩))

/-- Claim C3, counterexample. The signature of the token verifies, its issuer
and audience are the configured ones and the current time lies between its
`nbf` and its `exp`; but its `iat` is 50 minutes ahead of the current time, and
the library refuses a token issued more than a minute in the future. -/
theorem Authenticate_jwt_refuses_postdated :
    (Authenticate
        (jwtEnv (.ok ({ aliceClaims "https://issuer.example.com" with
          IssuedAt := some 1700003000 }, aliceCustomClaims)))
        jwtConfig [("token", "e30.e30.c2ln")]).1 =
      Outcome.returned none
        (some ("JWT token validation failed: " ++
          "square/go-jose/jwt: validation field, token issued in the future (iat)")) := by
  rfl

/-- Claim C3, amended. With the claim validation of go-jose, for every JWT
configuration whose key parses as an RSA public key and every token whose
signature verifies against it, whose issuer is `config.issuer`, whose audience
contains `config.audience`, whose `nbf` is not after and whose `exp` is not
before the current time, and whose `iat`, if it has one, is not more than one
minute ahead of the current time, `Authenticate` with method `jwt_token`
returns a nil error and a result with `Valid = true` whose `UserID` is the
`sub` claim of the token. -/
theorem Authenticate_jwt_accepts (env : Env) (config : AuthConfig) (credentials : StringMap)
    (tokenString blockBytes : String) (n e : Nat) (token : JSONWebToken)
    (claims : Claims) (customClaims : List (String × JSONValue))
    (hlibrary : env.Validate = Claims.Validate)
    (hmethod : config.Method = JWTTokenAuth)
    (htoken : mapGet credentials "token" = some tokenString)
    (hpem : env.pemDecode config.JWT.Key = some blockBytes)
    (hkey : env.ParsePKIXPublicKey blockBytes = .ok (PublicKey.rsa n e))
    (hparse : env.ParseSigned tokenString = .ok token)
    (hverify : env.VerifyClaims token (PublicKey.rsa n e) = .ok (claims, customClaims))
    (hissuer : claims.Issuer = config.JWT.Issuer)
    (haudience : config.JWT.Audience ∈ claims.Audience)
    (hnbf : ∀ nbf, claims.NotBefore = some nbf → NumericDateTime nbf ≤ env.Now [])
    (hexp : ∀ exp, claims.Expiry = some exp → env.Now [] ≤ NumericDateTime exp)
    (hiat : ∀ iat, claims.IssuedAt = some iat →
      NumericDateTime iat ≤ env.Now [] + DefaultLeeway) :
    ∃ result, (Authenticate env config credentials).1 = Outcome.returned (some result) none ∧
      result.Valid = true ∧ result.UserID = claims.Subject := by
  apply Authenticate_jwt_result_of_verdict env config credentials tokenString blockBytes n e
    token claims customClaims hmethod htoken hpem hkey hparse hverify
  rw [hlibrary, Claims.Validate_eq_none_iff]
  have hleeway : (0 : Int) ≤ DefaultLeeway := by decide
  refine ⟨Or.inr hissuer.symm, ?_, ?_, ?_, ?_⟩
  · intro v hv
    rw [List.mem_singleton.mp hv]
    exact haudience
  · cases h : claims.NotBefore with
    | none => rfl
    | some nbf =>
      have := hnbf nbf h
      simp only [beforeDate, decide_eq_false_iff_not]
      omega
  · cases h : claims.Expiry with
    | none => rfl
    | some exp =>
      have := hexp exp h
      simp only [afterDate, decide_eq_false_iff_not]
      omega
  · cases h : claims.IssuedAt with
    | none => rfl
    | some iat =>
      have := hiat iat h
      simp only [beforeDate, decide_eq_false_iff_not]
      omega

/-- The token for `alice` from the configured issuer is accepted as `alice`. -/
theorem Authenticate_jwt_accepts_witness :
    ∃ result, (Authenticate (jwtEnv (.ok (aliceClaims "https://issuer.example.com",
        aliceCustomClaims))) jwtConfig [("token", "e30.e30.c2ln")]).1 =
        Outcome.returned (some result) none ∧
      result.Valid = true ∧ result.UserID = "alice" :=
  Authenticate_jwt_accepts (jwtEnv (.ok (aliceClaims "https://issuer.example.com",
      aliceCustomClaims))) jwtConfig [("token", "e30.e30.c2ln")] "e30.e30.c2ln" "der-bytes"
    3233 17 { compact := "e30.e30.c2ln" } (aliceClaims "https://issuer.example.com")
    aliceCustomClaims rfl rfl rfl rfl rfl rfl rfl rfl (by decide)
    (fun nbf h => by cases h; decide) (fun exp h => by cases h; decide)
    (fun iat h => by cases h)

/-! ## C5: how failure is signalled -/

theorem authenticateOAuth2_conventional (env : Env) (config : OAuth2Config)
    (credentials : StringMap) : (authenticateOAuth2 env config credentials).1.Conventional := by
  simp only [authenticateOAuth2]
  repeat' split
  all_goals simp [Outcome.Conventional, fail, succeed]

theorem authenticateSAML_conventional (env : Env) (config : SAMLConfig)
    (credentials : StringMap) : (authenticateSAML env config credentials).1.Conventional := by
  simp only [authenticateSAML]
  repeat' split
  all_goals simp [Outcome.Conventional, fail, succeed, samlCopyAttributes_Valid]

theorem authenticateJWT_conventional (env : Env) (config : JWTConfig)
    (credentials : StringMap) : (authenticateJWT env config credentials).1.Conventional := by
  simp only [authenticateJWT]
  repeat' split
  all_goals simp [Outcome.Conventional, fail, succeed, jwtCopyClaims_Valid]

theorem authenticateLDAP_conventional_or_panicked (env : Env) (config : LDAPConfig)
    (credentials : StringMap) :
    (authenticateLDAP env config credentials).1.Conventional ∨
      ∃ msg, (authenticateLDAP env config credentials).1 = Outcome.panicked msg := by
  simp only [authenticateLDAP]
  repeat' split
  all_goals simp [Outcome.Conventional, fail, succeed]

/-- Whenever `Authenticate` does not panic, it returns either a nil result with
an error or a valid result with a nil error. -/
theorem Authenticate_conventional_or_panicked (env : Env) (config : AuthConfig)
    (credentials : StringMap) :
    (Authenticate env config credentials).1.Conventional ∨
      ∃ msg, (Authenticate env config credentials).1 = Outcome.panicked msg := by
  unfold Authenticate
  split
  · exact Or.inl (authenticateOAuth2_conventional env config.OAuth2 credentials)
  · split
    · exact Or.inl (authenticateSAML_conventional env config.SAML credentials)
    · split
      · exact authenticateLDAP_conventional_or_panicked env config.LDAP credentials
      · split
        · exact Or.inl (authenticateJWT_conventional env config.JWT credentials)
        · exact Or.inl (by simp [Outcome.Conventional, fail])

/-- Claim C5. The code at the failing input: the directory accepts the bind of
`alice` and answers the search with an entry whose `mail` attribute carries no
value. `Authenticate` then returns neither an error nor a result: the attribute
loop indexes `attr.Values[0]` on an empty slice and the call panics, after the
connection was opened, bound and searched, and the deferred close has run. -/
theorem Authenticate_ldap_valueless_attribute_panics :
    Authenticate (directoryEnv [valuelessEntry]) ldapConfig aliceCredentials =
      (Outcome.panicked "runtime error: index out of range [0] with length 0",
       [Event.ldapDial "ldap.example.com:389",
        Event.ldapBind "cn=alice,dc=example,dc=com" "wonderland",
        Event.ldapSearch
          { BaseDN := "dc=example,dc=com"
            Filter := "(&(objectClass=person)(uid=alice))"
            Attributes := ["dn", "cn", "mail"] },
        Event.ldapClose]) := by
  rfl

/-! ## C9 and C10: the OAuth2 user-info answer -/

/-- Whenever the exchange yields a token and the user-info request yields a
response whose body can be read, `authenticateOAuth2` succeeds with empty
identity fields, whatever the status code and the body are. -/
theorem authenticateOAuth2_ignores_response (env : Env) (config : OAuth2Config)
    (credentials : StringMap) (code body : String) (token : Token) (resp : HTTPResponse)
    (hcode : mapGet credentials "code" = some code)
    (hexchange : ∀ client, env.Exchange [] client code = .ok token)
    (hget : ∀ events client, env.Get events client token userInfoURL = .ok resp)
    (hbody : resp.Body = .ok body) :
    (authenticateOAuth2 env config credentials).1 =
      Outcome.returned
        (some
          { UserID := "", UserName := "", Email := "", Attributes := [], Valid := true,
            AccessToken := token.AccessToken })
        none := by
  simp [authenticateOAuth2, hcode, hexchange, hget, hbody, succeed]

/-- Claim C9. The code at the failing input: the token exchange succeeds and the
user-info request is answered with any status code (500, say) and any body
(one that is no user-info document, say). `Authenticate` returns a nil error
and a result with `Valid = true`: neither the status code nor the body is
looked at. -/
theorem Authenticate_oauth2_accepts_any_userinfo (status : Nat) (body : String) :
    (Authenticate (providerEnv status body) googleConfig [("code", "4/0AbCd")]).1 =
      Outcome.returned
        (some
          { UserID := ""
            UserName := ""
            Email := ""
            Attributes := []
            Valid := true
            AccessToken := "ya29.token" })
        none := by
  rfl

/-- Claim C10. The code at the failing input: Google answers the user-info
request with status 200 and the document of the user `1234`, named `Alice`,
with the address `alice@example.com`. The result carries the access token of
the exchange and `Valid = true`, but `UserID`, `UserName` and `Email` are the
empty string: the body is read and dropped. -/
theorem Authenticate_oauth2_drops_identity :
    Authenticate (providerEnv 200 googleUserInfo) googleConfig [("code", "4/0AbCd")] =
      (Outcome.returned
        (some
          { UserID := ""
            UserName := ""
            Email := ""
            Attributes := []
            Valid := true
            AccessToken := "ya29.token" })
        none,
       [Event.tokenExchange
          { ClientID := "client-1"
            ClientSecret := "secret-1"
            RedirectURL := "https://meet.example.com/auth/oauth2/google"
            Scopes := ["email"]
            Endpoint :=
              { AuthURL := "https://accounts.google.com/o/oauth2/auth"
                TokenURL := "https://oauth2.googleapis.com/token" } }
          "4/0AbCd",
        Event.httpGet "https://www.googleapis.com/oauth2/v2/userinfo" "ya29.token",
        Event.bodyClose]) := by
  rfl

/-! ## C7: the relay state survives the redirect address -/

theorem upperhex_digit : ∀ n, n < 16 →
    ishex (upperhex n) = true ∧ unhex (upperhex n) = n ∧
      upperhex n ≠ 38 ∧ upperhex n ≠ 61 ∧ upperhex n ≠ 35 ∧ upperhex n ≠ 63 ∧
      upperhex n ≠ 59 := by
  decide

theorem byte_of_val (c : Byte) : (Fin.ofNat c.val : Byte) = c := by
  apply Fin.ext
  simp [Fin.ofNat, Nat.mod_eq_of_lt c.isLt]

theorem hex_roundtrip (c : Byte) :
    ishex (upperhex (c.val / 16)) = true ∧ ishex (upperhex (c.val % 16)) = true ∧
      (Fin.ofNat (unhex (upperhex (c.val / 16)) * 16 + unhex (upperhex (c.val % 16))) : Byte)
        = c := by
  have hc := c.isLt
  have hhi : c.val / 16 < 16 := by omega
  have hlo : c.val % 16 < 16 := by omega
  obtain ⟨h1, h2, -⟩ := upperhex_digit _ hhi
  obtain ⟨h3, h4, -⟩ := upperhex_digit _ hlo
  refine ⟨h1, h3, ?_⟩
  rw [h2, h4]
  have : c.val / 16 * 16 + c.val % 16 = c.val := by omega
  rw [this]
  exact byte_of_val c

theorem unescaped_plain (c : Byte) (h : shouldEscape c = false) :
    c ≠ 37 ∧ c ≠ 43 ∧ c ≠ 38 ∧ c ≠ 61 ∧ c ≠ 35 ∧ c ≠ 63 ∧ c ≠ 59 := by
  have hc := c.isLt
  simp only [shouldEscape] at h
  split at h
  · rename_i hr
    refine ⟨?_, ?_, ?_, ?_, ?_, ?_, ?_⟩ <;> intro heq <;> rw [heq] at hr <;> revert hr <;> decide
  · split at h
    · rename_i hr
      refine ⟨?_, ?_, ?_, ?_, ?_, ?_, ?_⟩ <;> intro heq <;> rw [heq] at hr <;> revert hr <;> decide
    · exact absurd h (by decide)

theorem escapeByte_clean (c b : Byte) (hb : b ∈ escapeByte c) :
    b ≠ 38 ∧ b ≠ 61 ∧ b ≠ 35 ∧ b ≠ 63 ∧ b ≠ 59 := by
  have hc := c.isLt
  unfold escapeByte at hb
  split at hb
  · simp only [List.mem_singleton] at hb
    subst hb
    decide
  · split at hb
    · simp only [List.mem_cons, List.mem_singleton, List.not_mem_nil, or_false] at hb
      rcases hb with hb | hb | hb
      · subst hb
        decide
      · subst hb
        exact (upperhex_digit _ (by omega)).2.2
      · subst hb
        exact (upperhex_digit _ (by omega)).2.2
    · rename_i hne
      simp only [List.mem_singleton] at hb
      subst hb
      have := unescaped_plain b (by simpa using hne)
      exact ⟨this.2.2.1, this.2.2.2.1, this.2.2.2.2.1, this.2.2.2.2.2.1, this.2.2.2.2.2.2⟩

theorem QueryEscape_clean (s : List Byte) : ∀ b ∈ QueryEscape s,
    b ≠ 38 ∧ b ≠ 61 ∧ b ≠ 35 ∧ b ≠ 63 ∧ b ≠ 59 := by
  induction s with
  | nil => intro b hb; simp [QueryEscape] at hb
  | cons c rest ih =>
    intro b hb
    simp only [QueryEscape, List.mem_append] at hb
    rcases hb with hb | hb
    · exact escapeByte_clean c b hb
    · exact ih b hb

theorem QueryUnescape_plus (rest : List Byte) :
    QueryUnescape (43 :: rest) = (QueryUnescape rest).map (fun t => 32 :: t) := by
  conv => lhs; unfold QueryUnescape
  simp

theorem QueryUnescape_plain (c : Byte) (rest : List Byte) (h37 : c ≠ 37) (h43 : c ≠ 43) :
    QueryUnescape (c :: rest) = (QueryUnescape rest).map (fun t => c :: t) := by
  conv => lhs; unfold QueryUnescape
  simp [h37, h43]

theorem QueryUnescape_percent (h l : Byte) (rest : List Byte)
    (hh : ishex h = true) (hl : ishex l = true) :
    QueryUnescape (37 :: h :: l :: rest) =
      (QueryUnescape rest).map (fun t => Fin.ofNat (unhex h * 16 + unhex l) :: t) := by
  conv => lhs; unfold QueryUnescape
  simp [hh, hl]

theorem QueryUnescape_QueryEscape (s : List Byte) : QueryUnescape (QueryEscape s) = some s := by
  induction s with
  | nil => rfl
  | cons c rest ih =>
    simp only [QueryEscape, escapeByte]
    split
    · rename_i h32
      subst h32
      simp [QueryUnescape_plus, ih]
    · split
      · obtain ⟨h1, h2, h3⟩ := hex_roundtrip c
        simp [QueryUnescape_percent _ _ _ h1 h2, ih, h3]
      · rename_i hne
        have hp := unescaped_plain c (by simpa using hne)
        simp [QueryUnescape_plain c _ hp.1 hp.2.1, ih]

theorem cutBefore_append (sep : Byte) (a b : List Byte) (h : sep ∉ a) :
    cutBefore sep (a ++ sep :: b) = a := by
  induction a with
  | nil => simp [cutBefore]
  | cons x rest ih =>
    have hx : x ≠ sep := fun e => h (by simp [e])
    have hrest : sep ∉ rest := fun e => h (by simp [e])
    simp [cutBefore, hx, ih hrest]

theorem cutAfter_append (sep : Byte) (a b : List Byte) (h : sep ∉ a) :
    cutAfter sep (a ++ sep :: b) = b := by
  induction a with
  | nil => simp [cutAfter]
  | cons x rest ih =>
    have hx : x ≠ sep := fun e => h (by simp [e])
    have hrest : sep ∉ rest := fun e => h (by simp [e])
    simp [cutAfter, hx, ih hrest]

theorem cutBefore_self (sep : Byte) (a : List Byte) (h : sep ∉ a) : cutBefore sep a = a := by
  induction a with
  | nil => rfl
  | cons x rest ih =>
    have hx : x ≠ sep := fun e => h (by simp [e])
    have hrest : sep ∉ rest := fun e => h (by simp [e])
    simp [cutBefore, hx, ih hrest]

theorem cut_append (sep : Byte) (a b : List Byte) (h : sep ∉ a) :
    cut sep (a ++ sep :: b) = (a, b) := by
  simp [cut, cutBefore_append sep a b h, cutAfter_append sep a b h]

theorem splitAmp_of_not_mem (a : List Byte) (h : (38 : Byte) ∉ a) : splitAmp a = [a] := by
  induction a with
  | nil => rfl
  | cons x rest ih =>
    have hx : x ≠ 38 := fun e => h (by simp [e])
    have hrest : (38 : Byte) ∉ rest := fun e => h (by simp [e])
    simp [splitAmp, hx, ih hrest]

theorem splitAmp_append (a b : List Byte) (h : (38 : Byte) ∉ a) :
    splitAmp (a ++ 38 :: b) = a :: splitAmp b := by
  induction a with
  | nil => simp [splitAmp]
  | cons x rest ih =>
    have hx : x ≠ 38 := fun e => h (by simp [e])
    have hrest : (38 : Byte) ∉ rest := fun e => h (by simp [e])
    simp [splitAmp, hx, ih hrest]

theorem rawQuery_append (a q : List Byte) (hq : (63 : Byte) ∉ a) (hf : (35 : Byte) ∉ a)
    (hfq : (35 : Byte) ∉ q) : rawQuery (a ++ 63 :: q) = q := by
  have hall : (35 : Byte) ∉ a ++ 63 :: q := by
    simp only [List.mem_append, List.mem_cons, not_or]
    exact ⟨hf, by decide, hfq⟩
  simp [rawQuery, cut, cutBefore_self 35 _ hall, cutAfter_append 63 a q hq]

theorem parsePair_relay_state (relayState : List Byte) :
    parsePair (utf8 "relay_state" ++ 61 :: QueryEscape relayState) =
      some (utf8 "relay_state", relayState) := by
  have hclean := QueryEscape_clean relayState
  have h59 : (59 : Byte) ∉ utf8 "relay_state" ++ 61 :: QueryEscape relayState := by
    simp only [List.mem_append, List.mem_cons, not_or]
    exact ⟨by decide, by decide, fun hm => (hclean 59 hm).2.2.2.2 rfl⟩
  have hne : utf8 "relay_state" ++ 61 :: QueryEscape relayState ≠ [] := by simp
  have hcut := cut_append 61 (utf8 "relay_state") (QueryEscape relayState) (by decide)
  have hkey : QueryUnescape (utf8 "relay_state") = some (utf8 "relay_state") := by decide
  simp only [parsePair, h59, hne, if_false, hcut, hkey, QueryUnescape_QueryEscape]

theorem GenerateSAMLAuthURL_shape (config : SAMLConfig) (relayState : List Byte) :
    GenerateSAMLAuthURL config relayState =
      utf8 config.IDPIssuerURL ++ 63 ::
        (utf8 "saml_request=SAMLRequest" ++ 38 ::
          (utf8 "relay_state" ++ 61 :: QueryEscape relayState)) := by
  have e1 : utf8 "saml_request=" ++ QueryEscape (utf8 "SAMLRequest")
      = utf8 "saml_request=SAMLRequest" := by decide
  have e2 : utf8 "&relay_state=" = 38 :: (utf8 "relay_state" ++ [61]) := by decide
  have e3 : utf8 "?" = [63] := by decide
  simp only [GenerateSAMLAuthURL, e1, e2, e3, List.append_assoc, List.cons_append,
    List.nil_append]

/-- Claim C7. For every SAML configuration whose `idp_issuer_url` contains neither
`?` nor `#` and for every relay state, any sequence of bytes, the first
`relay_state` query parameter of `GenerateSAMLAuthURL(config, relayState)`,
read back and unescaped as `net/url` does, is the relay state byte for byte. -/
theorem GenerateSAMLAuthURL_relay_state_roundtrip (config : SAMLConfig)
    (relayState : List Byte)
    (hquery : (63 : Byte) ∉ utf8 config.IDPIssuerURL)
    (hfragment : (35 : Byte) ∉ utf8 config.IDPIssuerURL) :
    queryParam (GenerateSAMLAuthURL config relayState) (utf8 "relay_state") =
      some relayState := by
  have hclean := QueryEscape_clean relayState
  have h35 : (35 : Byte) ∉ utf8 "saml_request=SAMLRequest" ++ 38 ::
      (utf8 "relay_state" ++ 61 :: QueryEscape relayState) := by
    simp only [List.mem_append, List.mem_cons, not_or]
    exact ⟨by decide, by decide, by decide, by decide, fun hm => (hclean 35 hm).2.2.1 rfl⟩
  have h38 : (38 : Byte) ∉ utf8 "relay_state" ++ 61 :: QueryEscape relayState := by
    simp only [List.mem_append, List.mem_cons, not_or]
    exact ⟨by decide, by decide, fun hm => (hclean 38 hm).1 rfl⟩
  have hfirst : parsePair (utf8 "saml_request=SAMLRequest") =
      some (utf8 "saml_request", utf8 "SAMLRequest") := by decide
  rw [queryParam, GenerateSAMLAuthURL_shape, rawQuery_append _ _ hquery hfragment h35,
    ParseQuery, splitAmp_append _ _ (by decide), splitAmp_of_not_mem _ h38]
  have hno : decide (utf8 "saml_request" = utf8 "relay_state") = false := by decide
  simp only [List.filterMap_cons, List.filterMap_nil, hfirst, parsePair_relay_state,
    List.find?_cons, hno, decide_True, Option.map_some']

/-- The example of the specification: the relay state `/dashboard`. -/
theorem GenerateSAMLAuthURL_relay_state_roundtrip_witness :
    queryParam (GenerateSAMLAuthURL (samlConfig "").SAML (utf8 "/dashboard"))
      (utf8 "relay_state") = some (utf8 "/dashboard") :=
  GenerateSAMLAuthURL_relay_state_roundtrip (samlConfig "").SAML (utf8 "/dashboard")
    (by decide) (by decide)

/-! ## C14: the LDAP connection is closed -/

/-- Claim C14. In every run of `authenticateLDAP` in which the connection to
`server:port` is opened, the connection is closed exactly once, and the close
is the last thing that happens before the call returns, whichever way it
leaves: service-bind failure, missing username or password, user-bind failure,
search failure, no search result, success, and also a panic in the attribute
loop. -/
theorem authenticateLDAP_closes_once (env : Env) (config : LDAPConfig)
    (credentials : StringMap)
    (hdial : env.Dial [] (config.Server ++ ":" ++ toString config.Port) = none) :
    (authenticateLDAP env config credentials).2.count Event.ldapClose = 1 ∧
      (authenticateLDAP env config credentials).2.getLast? = some Event.ldapClose := by
  simp only [authenticateLDAP, hdial]
  repeat' split
  all_goals simp [List.count_cons, List.count_nil]

/-- The run of `alice` against a directory without entries: dial, bind,
search, close. -/
theorem authenticateLDAP_closes_once_witness :
    (authenticateLDAP (directoryEnv []) (exampleLDAP "") aliceCredentials).2.count
        Event.ldapClose = 1 ∧
      (authenticateLDAP (directoryEnv []) (exampleLDAP "") aliceCredentials).2.getLast? =
        some Event.ldapClose :=
  authenticateLDAP_closes_once (directoryEnv []) (exampleLDAP "") aliceCredentials rfl

/-- When the connection cannot be opened there is nothing to close. -/
theorem authenticateLDAP_no_close_without_connection (env : Env) (config : LDAPConfig)
    (credentials : StringMap) (e : String)
    (hdial : env.Dial [] (config.Server ++ ":" ++ toString config.Port) = some e) :
    (authenticateLDAP env config credentials).2.count Event.ldapClose = 0 := by
  simp [authenticateLDAP, hdial, List.count_cons, List.count_nil]

/-! ## C15: keys that are not required are ignored -/

theorem authenticateOAuth2_reads_code (env : Env) (config : OAuth2Config) (c1 c2 : StringMap)
    (h : mapGet c1 "code" = mapGet c2 "code") :
    authenticateOAuth2 env config c1 = authenticateOAuth2 env config c2 := by
  simp only [authenticateOAuth2, h]

theorem authenticateSAML_reads_response (env : Env) (config : SAMLConfig) (c1 c2 : StringMap)
    (h : mapGet c1 "SAMLResponse" = mapGet c2 "SAMLResponse") :
    authenticateSAML env config c1 = authenticateSAML env config c2 := by
  simp only [authenticateSAML, h]

theorem authenticateLDAP_reads_username_password (env : Env) (config : LDAPConfig)
    (c1 c2 : StringMap) (hu : mapGet c1 "username" = mapGet c2 "username")
    (hp : mapGet c1 "password" = mapGet c2 "password") :
    authenticateLDAP env config c1 = authenticateLDAP env config c2 := by
  simp only [authenticateLDAP, hu, hp]

theorem authenticateJWT_reads_token (env : Env) (config : JWTConfig) (c1 c2 : StringMap)
    (h : mapGet c1 "token" = mapGet c2 "token") :
    authenticateJWT env config c1 = authenticateJWT env config c2 := by
  simp only [authenticateJWT, h]

/-- Claim C15. For every configuration and environment and every two
credentials maps that agree on the keys the selected method requires (`code`
for `oauth2`, `SAMLResponse` for `saml`, `username` and `password` for `ldap`,
`token` for `jwt_token`, none for any other tag), `Authenticate` returns the
same outcome and causes the same events for both maps. -/
theorem Authenticate_ignores_unknown_keys (env : Env) (config : AuthConfig)
    (c1 c2 : StringMap)
    (hoauth : config.Method = OAuth2Auth → mapGet c1 "code" = mapGet c2 "code")
    (hsaml : config.Method = SAMLAuth → mapGet c1 "SAMLResponse" = mapGet c2 "SAMLResponse")
    (hldap : config.Method = LDAPAuth →
      mapGet c1 "username" = mapGet c2 "username" ∧
        mapGet c1 "password" = mapGet c2 "password")
    (hjwt : config.Method = JWTTokenAuth → mapGet c1 "token" = mapGet c2 "token") :
    Authenticate env config c1 = Authenticate env config c2 := by
  unfold Authenticate
  split
  · rename_i h
    exact authenticateOAuth2_reads_code env config.OAuth2 c1 c2 (hoauth h)
  · split
    · rename_i h
      exact authenticateSAML_reads_response env config.SAML c1 c2 (hsaml h)
    · split
      · rename_i h
        exact authenticateLDAP_reads_username_password env config.LDAP c1 c2
          (hldap h).1 (hldap h).2
      · split
        · rename_i h
          exact authenticateJWT_reads_token env config.JWT c1 c2 (hjwt h)
        · rfl

/-- The credentials of `alice` with two keys nobody asked for give the same
LDAP run as the credentials of `alice` alone. -/
theorem Authenticate_ignores_unknown_keys_witness :
    Authenticate (directoryEnv [aliceEntry]) ldapConfig
        (("role", "admin") :: ("code", "4/0AbCd") :: aliceCredentials) =
      Authenticate (directoryEnv [aliceEntry]) ldapConfig aliceCredentials :=
  Authenticate_ignores_unknown_keys (directoryEnv [aliceEntry]) ldapConfig
    (("role", "admin") :: ("code", "4/0AbCd") :: aliceCredentials) aliceCredentials
    (fun h => absurd h (by decide)) (fun h => absurd h (by decide))
    (fun _ => ⟨rfl, rfl⟩) (fun h => absurd h (by decide))

/-! ## C16: LDAP credentials are looked up after the connection is made -/

/-- Claim C16. The code at the failing input: credentials without `username`.
When the directory is unreachable the dial is attempted and its failure is
what comes back, not the missing-credential error; when it is reachable the
connection is opened and closed around the missing-credential error. In
neither run is the event trace empty, as failing fast would have it, and as it
is when `code`, `SAMLResponse` or `token` is missing in the other backends. -/
theorem Authenticate_ldap_missing_username_dials_first :
    Authenticate offlineEnv ldapConfig [("password", "wonderland")] =
        (Outcome.returned none
          (some "failed to connect to LDAP server: dial tcp: connection refused"),
         [Event.ldapDial "ldap.example.com:389"]) ∧
      Authenticate (directoryEnv []) ldapConfig [("password", "wonderland")] =
        (Outcome.returned none (some "missing username"),
         [Event.ldapDial "ldap.example.com:389", Event.ldapClose]) := by
  constructor <;> rfl

/-- What `Authenticate` with method `ldap` does for a credentials map that
lacks `username` or `password`: it dials first. If the dial fails, that failure
is returned. If the service bind (made when `bind_dn` is set) fails, that
failure is returned and the connection is closed. Otherwise the
missing-credential error is returned, `missing username` before
`missing password`, and the connection is closed. Neither the user bind nor
the search is attempted. -/
theorem Authenticate_ldap_missing_credential (env : Env) (config : AuthConfig)
    (credentials : StringMap) (hmethod : config.Method = LDAPAuth)
    (hmissing : mapGet credentials "username" = none ∨ mapGet credentials "password" = none) :
    (∀ e, env.Dial [] (config.LDAP.Server ++ ":" ++ toString config.LDAP.Port) = some e →
      Authenticate env config credentials =
        (Outcome.returned none (some ("failed to connect to LDAP server: " ++ e)),
         [Event.ldapDial (config.LDAP.Server ++ ":" ++ toString config.LDAP.Port)])) ∧
    (∀ e, env.Dial [] (config.LDAP.Server ++ ":" ++ toString config.LDAP.Port) = none →
      config.LDAP.BindDN ≠ "" →
      env.Bind [Event.ldapDial (config.LDAP.Server ++ ":" ++ toString config.LDAP.Port)]
        config.LDAP.BindDN config.LDAP.BindPass = some e →
      Authenticate env config credentials =
        (Outcome.returned none (some ("failed to bind with BindDN: " ++ e)),
         [Event.ldapDial (config.LDAP.Server ++ ":" ++ toString config.LDAP.Port),
          Event.ldapBind config.LDAP.BindDN config.LDAP.BindPass, Event.ldapClose])) ∧
    (env.Dial [] (config.LDAP.Server ++ ":" ++ toString config.LDAP.Port) = none →
      (config.LDAP.BindDN ≠ "" →
        env.Bind [Event.ldapDial (config.LDAP.Server ++ ":" ++ toString config.LDAP.Port)]
          config.LDAP.BindDN config.LDAP.BindPass = none) →
      Authenticate env config credentials =
        (Outcome.returned none
          (some (if mapGet credentials "username" = none then "missing username"
            else "missing password")),
         Event.ldapDial (config.LDAP.Server ++ ":" ++ toString config.LDAP.Port) ::
           ((if config.LDAP.BindDN ≠ "" then
              [Event.ldapBind config.LDAP.BindDN config.LDAP.BindPass] else []) ++
            [Event.ldapClose]))) := by
  rw [Authenticate_eq_ldap env config credentials hmethod]
  refine ⟨?_, ?_, ?_⟩
  · intro e hdial
    simp [authenticateLDAP, hdial, fail]
  · intro e hdial hset hbind
    simp [authenticateLDAP, hdial, hset, hbind, fail]
  · intro hdial hbind
    by_cases hset : config.LDAP.BindDN = ""
    · rcases hmissing with hu | hp
      · simp [authenticateLDAP, hdial, hset, hu, fail]
      · cases hu : mapGet credentials "username" <;>
          simp [authenticateLDAP, hdial, hset, hu, hp, fail]
    · have hb := hbind hset
      rcases hmissing with hu | hp
      · simp [authenticateLDAP, hdial, hset, hb, hu, fail]
      · cases hu : mapGet credentials "username" <;>
          simp [authenticateLDAP, hdial, hset, hb, hu, hp, fail]

/-- Credentials without `password` against a reachable directory with a service
account: dial, service bind, then the error, then close. -/
theorem Authenticate_ldap_missing_credential_witness :
    Authenticate (directoryEnv [])
        { ldapConfig with LDAP := exampleLDAP "cn=admin,dc=example,dc=com" }
        [("username", "alice")] =
      (Outcome.returned none (some "missing password"),
       [Event.ldapDial "ldap.example.com:389",
        Event.ldapBind "cn=admin,dc=example,dc=com" "service-secret", Event.ldapClose]) :=
  (Authenticate_ldap_missing_credential (directoryEnv [])
    { ldapConfig with LDAP := exampleLDAP "cn=admin,dc=example,dc=com" }
    [("username", "alice")] rfl (Or.inr rfl)).2.2 rfl (fun _ => rfl)

/-! ## C17: the endpoint of the code exchange -/

/-- Claim C17, counterexample. The provider is `sso.example.com`, its
authorization address contains `google` in the path and it names its own token
address; the exchange is nevertheless made with Google's endpoint. -/
theorem Authenticate_oauth2_sniffs_google :
    Authenticate offlineEnv ssoConfig [("code", "4/0AbCd")] =
      (Outcome.returned none
        (some "failed to exchange token: dial tcp: connection refused"),
       [Event.tokenExchange
          { ClientID := "client-2"
            ClientSecret := "secret-2"
            RedirectURL := "https://meet.example.com/auth/oauth2/sso"
            Scopes := []
            Endpoint :=
              { AuthURL := "https://accounts.google.com/o/oauth2/auth"
                TokenURL := "https://oauth2.googleapis.com/token" } }
          "4/0AbCd"]) := by
  rfl

/-- Claim C17, amended. For every OAuth2 configuration and every credentials
map with a `code`, the exchange is the first event and it is made with the
client identity of the configuration and with the endpoint `google.Endpoint`
when `auth_url` contains the text `google` anywhere, and with the explicit
`auth_url`/`token_url` pair only when it does not. -/
theorem authenticateOAuth2_exchange_endpoint (env : Env) (config : OAuth2Config)
    (credentials : StringMap) (code : String)
    (hcode : mapGet credentials "code" = some code) :
    ∃ rest, (authenticateOAuth2 env config credentials).2 =
      Event.tokenExchange
        { ClientID := config.ClientID
          ClientSecret := config.ClientSecret
          RedirectURL := config.RedirectURL
          Scopes := config.Scopes
          Endpoint :=
            if stringsContains config.AuthURL "google" = true then env.googleEndpoint
            else { AuthURL := config.AuthURL, TokenURL := config.TokenURL } }
        code :: rest := by
  simp only [authenticateOAuth2, hcode]
  repeat' split
  all_goals exact ⟨_, by simp only [List.append_assoc, List.cons_append, List.nil_append]; rfl⟩

/-- A provider whose address does not contain `google` is exchanged against its
own endpoint. -/
theorem authenticateOAuth2_exchange_endpoint_witness :
    ∃ rest, (authenticateOAuth2 offlineEnv
        { ssoConfig.OAuth2 with AuthURL := "https://sso.example.com/authorize" }
        [("code", "4/0AbCd")]).2 =
      Event.tokenExchange
        { ClientID := "client-2"
          ClientSecret := "secret-2"
          RedirectURL := "https://meet.example.com/auth/oauth2/sso"
          Scopes := []
          Endpoint :=
            { AuthURL := "https://sso.example.com/authorize"
              TokenURL := "https://sso.example.com/token" } }
        "4/0AbCd" :: rest :=
  authenticateOAuth2_exchange_endpoint offlineEnv
    { ssoConfig.OAuth2 with AuthURL := "https://sso.example.com/authorize" }
    [("code", "4/0AbCd")] "4/0AbCd" rfl

/-! ## C18: the Bearer prefix -/

theorem jwtCredentials_strips (rest : String) (hrest : rest ≠ "") :
    jwtCredentials ("Bearer " ++ rest) = [("token", rest)] := by
  have hlen : 0 < rest.data.length := by
    cases hd : rest.data with
    | nil => exact absurd (String.ext hd) hrest
    | cons c cs => simp
  have htake : ("Bearer " ++ rest).data.take 7 = "Bearer ".data := by
    simp [String.data_append]
  have hdrop : ("Bearer " ++ rest).data.drop 7 = rest.data := by
    simp [String.data_append]
  have hl : ("Bearer " ++ rest).length > 7 := by
    rw [String.length_append]
    have h7 : "Bearer ".length = 7 := by decide
    have hr : rest.length = rest.data.length := rfl
    omega
  simp only [jwtCredentials, hl, htake, hdrop, and_self, if_true]

theorem jwtCredentials_keeps (header : String)
    (h : ¬ (header.length > 7 ∧ header.data.take 7 = "Bearer ".data)) :
    jwtCredentials header = [("token", header)] := by
  simp only [jwtCredentials, h, if_false]

theorem jwtCredentials_of_no_token_after_prefix (header : String)
    (h : ∀ rest, rest ≠ "" → header ≠ "Bearer " ++ rest) :
    jwtCredentials header = [("token", header)] := by
  apply jwtCredentials_keeps
  rintro ⟨hlen, htake⟩
  apply h (String.mk (header.data.drop 7))
  · intro hempty
    have hd : (String.mk (header.data.drop 7)).data = "".data := by rw [hempty]
    have hl : (header.data.drop 7).length = 0 := by
      have := congrArg List.length hd
      simpa using this
    rw [List.length_drop] at hl
    have : header.length = header.data.length := rfl
    omega
  · apply String.ext
    rw [String.data_append, ← htake]
    exact (List.take_append_drop 7 header.data).symm

/-- Claim C18, counterexample. The header value `Bearer ` alone begins with the
prefix, yet nothing is cut: the token handed to `Authenticate` is `Bearer `
itself and not the empty string, as the answer of a library that repeats the
token it was given shows. -/
theorem HandleJWTAuth_bare_prefix_is_kept :
    jwtCredentials "Bearer " = [("token", "Bearer ")] ∧
      HandleJWTAuth echoEnv (some jwtSettings) "Bearer " =
        (Response.common false "failed to parse JWT token: cannot parse [Bearer ]", []) := by
  constructor <;> rfl

/-- Claim C18, amended. With JWT login enabled and a non-empty `Authorization`
header, `HandleJWTAuth` answers with the outcome of `Authenticate` for the JWT
configuration and a credentials map whose only entry is `token`: when the
header is `Bearer ` followed by at least one more character, the token is the
header without these 7 characters; in every other case, the bare `Bearer `
included, the token is the header unchanged. -/
theorem HandleJWTAuth_token (env : Env) (jwt : JWTSettings) (header : String)
    (henabled : jwt.Enabled = true) (hheader : header ≠ "") :
    (∀ rest, rest ≠ "" → header = "Bearer " ++ rest →
      HandleJWTAuth env (some jwt) header =
        authResponse (Authenticate env (jwtAuthConfig jwt) [("token", rest)])) ∧
    ((∀ rest, rest ≠ "" → header ≠ "Bearer " ++ rest) →
      HandleJWTAuth env (some jwt) header =
        authResponse (Authenticate env (jwtAuthConfig jwt) [("token", header)])) := by
  constructor
  · intro rest hrest heq
    subst heq
    simp only [HandleJWTAuth, henabled, hheader, if_false, jwtCredentials_strips rest hrest]
    simp
  · intro h
    simp only [HandleJWTAuth, henabled, hheader, if_false,
      jwtCredentials_of_no_token_after_prefix header h]
    simp

/-- The header `Bearer e30.e30.c2ln` gives the token `e30.e30.c2ln`, and the
header `e30.e30.c2ln` is passed as it is. -/
theorem HandleJWTAuth_token_witness :
    HandleJWTAuth echoEnv (some jwtSettings) "Bearer e30.e30.c2ln" =
        authResponse (Authenticate echoEnv (jwtAuthConfig jwtSettings)
          [("token", "e30.e30.c2ln")]) ∧
      HandleJWTAuth echoEnv (some jwtSettings) "e30.e30.c2ln" =
        authResponse (Authenticate echoEnv (jwtAuthConfig jwtSettings)
          [("token", "e30.e30.c2ln")]) :=
  ⟨(HandleJWTAuth_token echoEnv jwtSettings "Bearer e30.e30.c2ln" rfl (by decide)).1
      "e30.e30.c2ln" (by decide) rfl,
   (HandleJWTAuth_token echoEnv jwtSettings "e30.e30.c2ln" rfl (by decide)).2
      (fun rest _ h => absurd (congrArg (fun s => s.data.take 1) h) (by
        simp [String.data_append]))⟩

/-! ## Lemmas on maps -/

theorem mapGet_mapSet (m : StringMap) (k v k' : String) :
    mapGet (mapSet m k v) k' = if k = k' then some v else mapGet m k' := by
  induction m with
  | nil => simp [mapSet, mapGet]
  | cons entry rest ih =>
    obtain ⟨k0, v0⟩ := entry
    by_cases h0 : k0 = k
    · subst h0
      simp only [mapSet, if_true, mapGet]
      by_cases h1 : k0 = k' <;> simp [h1]
    · simp only [mapSet, h0, if_false, mapGet, ih]
      by_cases h1 : k0 = k'
      · have h2 : ¬ k = k' := fun e => h0 (h1.trans e.symm)
        simp [h1, h2]
      · simp [h1]

theorem mapGet_mapSet_self (m : StringMap) (k v : String) :
    mapGet (mapSet m k v) k = some v := by
  simp [mapGet_mapSet]

theorem mapGet_mapSet_of_ne (m : StringMap) (k v k' : String) (h : k ≠ k') :
    mapGet (mapSet m k v) k' = mapGet m k' := by
  simp [mapGet_mapSet, h]

/-! ## C11: what `authenticateSAML` extracts -/

theorem samlCopyAttributes_UserName (attrs : List SAMLAttribute) (result : AuthResult) :
    (samlCopyAttributes attrs result).UserName = result.UserName := by
  induction attrs generalizing result with
  | nil => rfl
  | cons attr rest ih =>
    unfold samlCopyAttributes
    split
    · exact ih result
    · simp only [ih]
      split <;> rfl

theorem samlCopyAttributes_Attributes (attrs : List SAMLAttribute) (result : AuthResult)
    (k : String) :
    mapGet (samlCopyAttributes attrs result).Attributes k =
      match lastValued (fun n => n = k) attrs with
      | some v => some v
      | none => mapGet result.Attributes k := by
  induction attrs generalizing result with
  | nil => rfl
  | cons attr rest ih =>
    unfold samlCopyAttributes
    split
    · rename_i hvals
      rw [ih]
      simp only [lastValued, hvals, List.head?_nil, ite_self]
      cases lastValued (fun n => decide (n = k)) rest <;> rfl
    · rename_i v more hvals
      rw [ih]
      simp only [lastValued, hvals, List.head?_cons]
      cases lastValued (fun n => decide (n = k)) rest with
      | some w => rfl
      | none =>
        by_cases hk : attr.Name = k <;>
          simp [apply_ite AuthResult.Attributes, hk, mapGet_mapSet]

theorem samlCopyAttributes_Email (attrs : List SAMLAttribute) (result : AuthResult) :
    (samlCopyAttributes attrs result).Email =
      (lastValued (fun n => n = "email" ∨ n = "mail") attrs).getD result.Email := by
  induction attrs generalizing result with
  | nil => rfl
  | cons attr rest ih =>
    unfold samlCopyAttributes
    split
    · rename_i hvals
      rw [ih]
      simp only [lastValued, hvals, List.head?_nil, ite_self]
      cases lastValued (fun n => decide (n = "email" ∨ n = "mail")) rest <;> rfl
    · rename_i v more hvals
      rw [ih]
      simp only [lastValued, hvals, List.head?_cons]
      cases lastValued (fun n => decide (n = "email" ∨ n = "mail")) rest with
      | some w => rfl
      | none =>
        by_cases hk : attr.Name = "email" ∨ attr.Name = "mail"
        · simp [hk]
        · simp [hk]

theorem lastValued_isSome_of_mem (p : String → Bool) (attrs : List SAMLAttribute)
    (attr : SAMLAttribute) (hmem : attr ∈ attrs) (hp : p attr.Name = true)
    (hvals : attr.Values ≠ []) : (lastValued p attrs).isSome = true := by
  induction attrs with
  | nil => cases hmem
  | cons a rest ih =>
    simp only [lastValued]
    cases hrest : lastValued p rest with
    | some w => rfl
    | none =>
      rcases List.mem_cons.mp hmem with heq | hin
      · subst heq
        cases hv : attr.Values with
        | nil => exact absurd hv hvals
        | cons v more => simp [hp]
      · have := ih hin
        rw [hrest] at this
        cases this

set_option maxRecDepth 100000 in
/-- Claim C11, counterexample. The accepted response names `alice` and carries
four attributes; `groups` has no value and does not appear in the result at
all, and of the two `mail` attributes only the second is left. (`Email` does
not set the address, as the claim says.) -/
theorem authenticateSAML_skips_valueless_attribute :
    authenticateSAML (parsedSAMLEnv aliceResponseBase64 aliceResponseXML aliceResponse)
        (samlConfig "").SAML
        [("SAMLResponse", aliceResponseBase64)] =
      (Outcome.returned
        (some
          { UserID := "alice"
            UserName := "alice"
            Email := "alice@example.org"
            Attributes := [("mail", "alice@example.org"), ("Email", "ALICE@EXAMPLE.COM")]
            Valid := true
            AccessToken := "" })
        none, []) ∧
      ({ Name := "groups", Values := [] } : SAMLAttribute) ∈ aliceResponse.Attributes ∧
      mapGet [("mail", "alice@example.org"), ("Email", "ALICE@EXAMPLE.COM")] "groups" = none := by
  refine ⟨rfl, by decide, rfl⟩

/-- Claim C11, amended. For every SAML response accepted by `authenticateSAML`
(it decodes and unmarshals), `UserID` and `UserName` both equal the NameID
text; `Attributes` maps a name to the first value of the last attribute of
that name that has a value, so every attribute with at least one value appears
under its name and an attribute without a value is left out; and `Email` is
the first value of the last attribute that is named exactly `email` or `mail`
and has a value, and empty when there is none. -/
theorem authenticateSAML_extracts (env : Env) (config : SAMLConfig)
    (credentials : StringMap) (samlResponse decoded : String) (response : SAMLResponse)
    (hcred : mapGet credentials "SAMLResponse" = some samlResponse)
    (hdecode : env.DecodeString samlResponse = .ok decoded)
    (hxml : env.Unmarshal decoded = .ok response) :
    ∃ result, authenticateSAML env config credentials =
        (Outcome.returned (some result) none, []) ∧
      result.UserID = response.NameID ∧ result.UserName = response.NameID ∧
      (∀ k, mapGet result.Attributes k = lastValued (fun n => n = k) response.Attributes) ∧
      (∀ attr ∈ response.Attributes, attr.Values ≠ [] →
        (mapGet result.Attributes attr.Name).isSome = true) ∧
      result.Email =
        (lastValued (fun n => n = "email" ∨ n = "mail") response.Attributes).getD "" := by
  have hattrs : ∀ k, mapGet (samlCopyAttributes response.Attributes
      { UserID := response.NameID, UserName := response.NameID, Email := "", Valid := true,
        Attributes := [], AccessToken := "" }).Attributes k =
      lastValued (fun n => n = k) response.Attributes := by
    intro k
    rw [samlCopyAttributes_Attributes]
    cases lastValued (fun n => decide (n = k)) response.Attributes <;> rfl
  refine ⟨samlCopyAttributes response.Attributes
    { UserID := response.NameID, UserName := response.NameID, Email := "", Valid := true,
      Attributes := [], AccessToken := "" }, ?_, ?_, ?_, hattrs, ?_, ?_⟩
  · simp [authenticateSAML, hcred, hdecode, hxml, succeed]
  · rw [samlCopyAttributes_UserID]
  · rw [samlCopyAttributes_UserName]
  · intro attr hmem hvals
    rw [hattrs]
    exact lastValued_isSome_of_mem _ _ attr hmem (by simp) hvals
  · rw [samlCopyAttributes_Email]

set_option maxRecDepth 100000 in
/-- The response of `alice`: the second `mail` attribute gives the address. -/
theorem authenticateSAML_extracts_witness :
    ∃ result, authenticateSAML
        (parsedSAMLEnv aliceResponseBase64 aliceResponseXML aliceResponse) (samlConfig "").SAML
        [("SAMLResponse", aliceResponseBase64)] =
        (Outcome.returned (some result) none, []) ∧
      result.UserID = "alice" ∧ result.UserName = "alice" ∧
      (∀ k, mapGet result.Attributes k = lastValued (fun n => n = k) aliceResponse.Attributes) ∧
      (∀ attr ∈ aliceResponse.Attributes, attr.Values ≠ [] →
        (mapGet result.Attributes attr.Name).isSome = true) ∧
      result.Email = "alice@example.org" :=
  authenticateSAML_extracts (parsedSAMLEnv aliceResponseBase64 aliceResponseXML aliceResponse)
    (samlConfig "").SAML
    [("SAMLResponse", aliceResponseBase64)]
    aliceResponseBase64 aliceResponseXML aliceResponse rfl rfl rfl

/-! ## C12: what `authenticateJWT` extracts -/

theorem jwtCopyClaims_cons_str (key s : String) (rest : List (String × JSONValue))
    (result : AuthResult) :
    jwtCopyClaims ((key, JSONValue.str s) :: rest) result =
      jwtCopyClaims rest
        (if key = "name" ∨ key = "username" then
          { result with Attributes := mapSet result.Attributes key s, UserName := s }
        else if key = "email" then
          { result with Attributes := mapSet result.Attributes key s, Email := s }
        else { result with Attributes := mapSet result.Attributes key s }) := by
  simp only [jwtCopyClaims]

theorem jwtCopyClaims_cons_other (key : String) (value : JSONValue)
    (rest : List (String × JSONValue)) (result : AuthResult)
    (h : ∀ s, value ≠ JSONValue.str s) :
    jwtCopyClaims ((key, value) :: rest) result = jwtCopyClaims rest result := by
  cases value with
  | str s => exact absurd rfl (h s)
  | number t => rfl
  | bool b => rfl
  | null => rfl
  | composite t => rfl

theorem lastString_cons_other (p : String → Bool) (key : String) (value : JSONValue)
    (rest : List (String × JSONValue)) (h : ∀ s, value ≠ JSONValue.str s) :
    lastString p ((key, value) :: rest) = lastString p rest := by
  simp only [lastString]
  cases lastString p rest with
  | some v => rfl
  | none =>
    cases value with
    | str s => exact absurd rfl (h s)
    | number t => simp
    | bool b => simp
    | null => simp
    | composite t => simp

theorem jwtCopyClaims_Attributes (l : List (String × JSONValue)) (result : AuthResult)
    (k : String) :
    mapGet (jwtCopyClaims l result).Attributes k =
      match lastString (fun n => n = k) l with
      | some v => some v
      | none => mapGet result.Attributes k := by
  induction l generalizing result with
  | nil => rfl
  | cons entry rest ih =>
    obtain ⟨key, value⟩ := entry
    by_cases hstr : ∃ s, value = JSONValue.str s
    · obtain ⟨s, rfl⟩ := hstr
      rw [jwtCopyClaims_cons_str, ih]
      simp only [lastString]
      cases lastString (fun n => decide (n = k)) rest with
      | some w => rfl
      | none =>
        by_cases hk : key = k <;>
          simp [apply_ite AuthResult.Attributes, hk, mapGet_mapSet]
    · have hne : ∀ s, value ≠ JSONValue.str s := fun s e => hstr ⟨s, e⟩
      rw [jwtCopyClaims_cons_other _ _ _ _ hne, ih, lastString_cons_other _ _ _ _ hne]

theorem jwtCopyClaims_Email (l : List (String × JSONValue)) (result : AuthResult) :
    (jwtCopyClaims l result).Email =
      (lastString (fun n => n = "email") l).getD result.Email := by
  induction l generalizing result with
  | nil => rfl
  | cons entry rest ih =>
    obtain ⟨key, value⟩ := entry
    by_cases hstr : ∃ s, value = JSONValue.str s
    · obtain ⟨s, rfl⟩ := hstr
      rw [jwtCopyClaims_cons_str, ih]
      simp only [lastString]
      cases lastString (fun n => decide (n = "email")) rest with
      | some w => rfl
      | none =>
        by_cases hk : key = "email"
        · subst hk
          simp
        · by_cases hn : key = "name" ∨ key = "username" <;> simp [hk, hn]
    · have hne : ∀ s, value ≠ JSONValue.str s := fun s e => hstr ⟨s, e⟩
      rw [jwtCopyClaims_cons_other _ _ _ _ hne, ih, lastString_cons_other _ _ _ _ hne]

theorem jwtCopyClaims_UserName (l : List (String × JSONValue)) (result : AuthResult) :
    (jwtCopyClaims l result).UserName =
      (lastString (fun n => n = "name" ∨ n = "username") l).getD result.UserName := by
  induction l generalizing result with
  | nil => rfl
  | cons entry rest ih =>
    obtain ⟨key, value⟩ := entry
    by_cases hstr : ∃ s, value = JSONValue.str s
    · obtain ⟨s, rfl⟩ := hstr
      rw [jwtCopyClaims_cons_str, ih]
      simp only [lastString]
      cases lastString (fun n => decide (n = "name" ∨ n = "username")) rest with
      | some w => rfl
      | none =>
        by_cases hn : key = "name" ∨ key = "username"
        · simp [hn]
        · by_cases hk : key = "email" <;> simp [hk, hn]
    · have hne : ∀ s, value ≠ JSONValue.str s := fun s e => hstr ⟨s, e⟩
      rw [jwtCopyClaims_cons_other _ _ _ _ hne, ih, lastString_cons_other _ _ _ _ hne]

theorem lastString_mem (p : String → Bool) (l : List (String × JSONValue)) (s : String)
    (h : lastString p l = some s) : ∃ k, p k = true ∧ (k, JSONValue.str s) ∈ l := by
  induction l with
  | nil => cases h
  | cons entry rest ih =>
    obtain ⟨key, value⟩ := entry
    simp only [lastString] at h
    cases hrest : lastString p rest with
    | some w =>
      rw [hrest] at h
      obtain ⟨k, hk, hmem⟩ := ih (hrest.trans (by simpa using h))
      exact ⟨k, hk, List.mem_cons_of_mem _ hmem⟩
    | none =>
      rw [hrest] at h
      by_cases hp : p key = true
      · cases value with
        | str t =>
          simp only [hp, if_true, Option.some.injEq] at h
          subst h
          exact ⟨key, hp, List.mem_cons_self _ _⟩
        | number t => simp [hp] at h
        | bool b => simp [hp] at h
        | null => simp [hp] at h
        | composite t => simp [hp] at h
      · simp [hp] at h

theorem lastString_isSome_of_mem (p : String → Bool) (l : List (String × JSONValue))
    (k s : String) (hp : p k = true) (hmem : (k, JSONValue.str s) ∈ l) :
    ∃ v, lastString p l = some v := by
  induction l with
  | nil => cases hmem
  | cons entry rest ih =>
    obtain ⟨key, value⟩ := entry
    simp only [lastString]
    cases hrest : lastString p rest with
    | some w => exact ⟨w, rfl⟩
    | none =>
      rcases List.mem_cons.mp hmem with heq | hin
      · cases heq
        exact ⟨s, by simp [hp]⟩
      · obtain ⟨v, hv⟩ := ih hin
        rw [hrest] at hv
        cases hv

theorem value_unique_of_nodup_keys (l : List (String × JSONValue))
    (hnodup : (l.map Prod.fst).Nodup) (k : String) (v w : JSONValue)
    (hv : (k, v) ∈ l) (hw : (k, w) ∈ l) : v = w := by
  induction l with
  | nil => cases hv
  | cons entry rest ih =>
    simp only [List.map_cons, List.nodup_cons, List.mem_map, not_exists, not_and] at hnodup
    rcases List.mem_cons.mp hv with hv1 | hv2 <;> rcases List.mem_cons.mp hw with hw1 | hw2
    · rw [← hv1] at hw1
      exact (Prod.mk.inj hw1).2.symm
    · exact absurd (by rw [← hv1]) (hnodup.1 (k, w) hw2)
    · exact absurd (by rw [← hw1]) (hnodup.1 (k, v) hv2)
    · exact ih hnodup.2 hv2 hw2

/-- Claim C12, counterexample. The accepted token of `alice` carries the claim
`exp`, a number; it does not appear in the attributes of the result, which hold
the three string claims only. -/
theorem authenticateJWT_drops_non_string_claim :
    authenticateJWT (jwtEnv (.ok (aliceClaims "https://issuer.example.com", aliceCustomClaims)))
        jwtConfig.JWT [("token", "e30.e30.c2ln")] =
      (Outcome.returned
        (some
          { UserID := "alice"
            UserName := "Alice"
            Email := "alice@example.com"
            Attributes :=
              [("sub", "alice"), ("name", "Alice"), ("email", "alice@example.com")]
            Valid := true
            AccessToken := "" })
        none, [Event.timeNow]) ∧
      ("exp", JSONValue.number "1700003600") ∈ aliceCustomClaims ∧
      mapGet [("sub", "alice"), ("name", "Alice"), ("email", "alice@example.com")] "exp"
        = none := by
  refine ⟨rfl, by decide, rfl⟩

/-- Claim C12, amended. For every JWT accepted by `authenticateJWT`, when the
`range` visits every entry of the claims map once and the keys of the map are
distinct: every claim whose value is a string appears in `Attributes` under its
key with that value, and a key without a string value does not appear at all;
`Email` is the value of the claim `email` when that is a string; and when
`name` or `username` is present with a string value, `UserName` is the value of
one of the two. -/
theorem authenticateJWT_extracts (env : Env) (config : JWTConfig) (credentials : StringMap)
    (tokenString blockBytes : String) (n e : Nat) (token : JSONWebToken)
    (claims : Claims) (customClaims : List (String × JSONValue))
    (htoken : mapGet credentials "token" = some tokenString)
    (hpem : env.pemDecode config.Key = some blockBytes)
    (hkey : env.ParsePKIXPublicKey blockBytes = .ok (PublicKey.rsa n e))
    (hparse : env.ParseSigned tokenString = .ok token)
    (hverify : env.VerifyClaims token (PublicKey.rsa n e) = .ok (claims, customClaims))
    (hvalidate :
      env.Validate claims
        { Issuer := config.Issuer, Audience := [config.Audience], Time := env.Now [] } = none)
    (horder : (env.rangeOrder customClaims).Perm customClaims)
    (hkeys : (customClaims.map Prod.fst).Nodup) :
    ∃ result, (authenticateJWT env config credentials).1 =
        Outcome.returned (some result) none ∧
      (∀ k s, (k, JSONValue.str s) ∈ customClaims → mapGet result.Attributes k = some s) ∧
      (∀ k, (∀ s, (k, JSONValue.str s) ∉ customClaims) → mapGet result.Attributes k = none) ∧
      (∀ s, ("email", JSONValue.str s) ∈ customClaims → result.Email = s) ∧
      ((∃ s, ("name", JSONValue.str s) ∈ customClaims ∨
          ("username", JSONValue.str s) ∈ customClaims) →
        ∃ s, (("name", JSONValue.str s) ∈ customClaims ∨
          ("username", JSONValue.str s) ∈ customClaims) ∧ result.UserName = s) := by
  have hnodup : ((env.rangeOrder customClaims).map Prod.fst).Nodup :=
    ((horder.map Prod.fst).nodup_iff).mpr hkeys
  have hmem : ∀ x, x ∈ env.rangeOrder customClaims ↔ x ∈ customClaims := fun x => horder.mem_iff
  refine ⟨jwtCopyClaims (env.rangeOrder customClaims)
    { UserID := claims.Subject, UserName := "", Email := "", Valid := true, Attributes := [],
      AccessToken := "" }, ?_, ?_, ?_, ?_, ?_⟩
  · simp [authenticateJWT, htoken, hpem, hkey, hparse, hverify, hvalidate, succeed]
  · intro k s hks
    rw [jwtCopyClaims_Attributes]
    obtain ⟨v, hv⟩ := lastString_isSome_of_mem (fun n => n = k) _ k s (by simp)
      ((hmem _).mpr hks)
    obtain ⟨k', hk', hin⟩ := lastString_mem _ _ _ hv
    have hk'' : k' = k := by simpa using hk'
    subst hk''
    have := value_unique_of_nodup_keys _ hnodup k' _ _ hin ((hmem _).mpr hks)
    rw [hv]
    cases this
    rfl
  · intro k hnone
    rw [jwtCopyClaims_Attributes]
    cases hv : lastString (fun n => decide (n = k)) (env.rangeOrder customClaims) with
    | none => rfl
    | some v =>
      obtain ⟨k', hk', hin⟩ := lastString_mem _ _ _ hv
      have hk'' : k' = k := by simpa using hk'
      subst hk''
      exact absurd ((hmem _).mp hin) (hnone v)
  · intro s hs
    rw [jwtCopyClaims_Email]
    obtain ⟨v, hv⟩ := lastString_isSome_of_mem (fun n => n = "email") _ "email" s (by simp)
      ((hmem _).mpr hs)
    obtain ⟨k', hk', hin⟩ := lastString_mem _ _ _ hv
    have hk'' : k' = "email" := by simpa using hk'
    subst hk''
    have := value_unique_of_nodup_keys _ hnodup _ _ _ hin ((hmem _).mpr hs)
    rw [hv]
    cases this
    rfl
  · rintro ⟨s, hs⟩
    rw [jwtCopyClaims_UserName]
    have hsome : ∃ v, lastString (fun n => n = "name" ∨ n = "username")
        (env.rangeOrder customClaims) = some v := by
      rcases hs with hs | hs
      · exact lastString_isSome_of_mem _ _ "name" s (by simp) ((hmem _).mpr hs)
      · exact lastString_isSome_of_mem _ _ "username" s (by simp) ((hmem _).mpr hs)
    obtain ⟨v, hv⟩ := hsome
    obtain ⟨k', hk', hin⟩ := lastString_mem _ _ _ hv
    have hk'' : k' = "name" ∨ k' = "username" := by simpa using hk'
    refine ⟨v, ?_, by rw [hv]; rfl⟩
    rcases hk'' with h | h
    · subst h
      exact Or.inl ((hmem _).mp hin)
    · subst h
      exact Or.inr ((hmem _).mp hin)

/-- The token of `alice`: three string claims and the number `exp`. -/
theorem authenticateJWT_extracts_witness :
    ∃ result, (authenticateJWT
        (jwtEnv (.ok (aliceClaims "https://issuer.example.com", aliceCustomClaims)))
        jwtConfig.JWT [("token", "e30.e30.c2ln")]).1 = Outcome.returned (some result) none ∧
      (∀ k s, (k, JSONValue.str s) ∈ aliceCustomClaims →
        mapGet result.Attributes k = some s) ∧
      (∀ k, (∀ s, (k, JSONValue.str s) ∉ aliceCustomClaims) →
        mapGet result.Attributes k = none) ∧
      (∀ s, ("email", JSONValue.str s) ∈ aliceCustomClaims → result.Email = s) ∧
      ((∃ s, ("name", JSONValue.str s) ∈ aliceCustomClaims ∨
          ("username", JSONValue.str s) ∈ aliceCustomClaims) →
        ∃ s, (("name", JSONValue.str s) ∈ aliceCustomClaims ∨
          ("username", JSONValue.str s) ∈ aliceCustomClaims) ∧ result.UserName = s) :=
  authenticateJWT_extracts
    (jwtEnv (.ok (aliceClaims "https://issuer.example.com", aliceCustomClaims)))
    jwtConfig.JWT [("token", "e30.e30.c2ln")] "e30.e30.c2ln" "der-bytes" 3233 17
    { compact := "e30.e30.c2ln" } (aliceClaims "https://issuer.example.com")
    aliceCustomClaims rfl rfl rfl rfl rfl (by decide) (List.Perm.refl _) (by decide)

/-! ## C13: the result of an LDAP login -/

theorem ldapCopyAttributes_eq_none_iff (attrs : List EntryAttribute) (m : StringMap) :
    ldapCopyAttributes attrs m = none ↔ ∃ attr ∈ attrs, attr.Values = [] := by
  induction attrs generalizing m with
  | nil => simp [ldapCopyAttributes]
  | cons attr rest ih =>
    unfold ldapCopyAttributes
    split
    · rename_i hvals
      simp [hvals]
    · rename_i v more hvals
      rw [ih]
      simp [hvals]

theorem ldapCopyAttributes_keys (attrs : List EntryAttribute) (m m' : StringMap)
    (h : ldapCopyAttributes attrs m = some m') :
    (∀ k, (mapGet m k).isSome = true → (mapGet m' k).isSome = true) ∧
      ∀ attr ∈ attrs, (mapGet m' attr.Name).isSome = true := by
  induction attrs generalizing m with
  | nil =>
    simp only [ldapCopyAttributes, Option.some.injEq] at h
    subst h
    exact ⟨fun _ hk => hk, fun _ hmem => by cases hmem⟩
  | cons attr rest ih =>
    unfold ldapCopyAttributes at h
    split at h
    · cases h
    · rename_i v more hvals
      obtain ⟨hkeep, hrest⟩ := ih _ h
      have hstep : ∀ k, (mapGet m k).isSome = true →
          (mapGet (mapSet m attr.Name v) k).isSome = true := by
        intro k hk
        rw [mapGet_mapSet]
        split
        · rfl
        · exact hk
      refine ⟨fun k hk => hkeep k (hstep k hk), ?_⟩
      intro a hmem
      rcases List.mem_cons.mp hmem with heq | hin
      · subst heq
        exact hkeep _ (by rw [mapGet_mapSet_self]; rfl)
      · exact hrest a hin

/-- When the user bind succeeds and the search finds nothing, the answer is
`user not found`. -/
theorem authenticateLDAP_not_found (env : Env) (config : LDAPConfig) (credentials : StringMap)
    (username password : String)
    (hdial : ∀ events addr, env.Dial events addr = none)
    (hbind : ∀ events dn pw, env.Bind events dn pw = none)
    (huser : mapGet credentials "username" = some username)
    (hpass : mapGet credentials "password" = some password)
    (hsearch : ∀ events req, env.Search events req = .ok []) :
    (authenticateLDAP env config credentials).1 =
      Outcome.returned none (some "user not found") := by
  by_cases hset : config.BindDN = "" <;>
    simp [authenticateLDAP, hdial, hbind, huser, hpass, hsearch, hset, fail]

/-- When the user bind succeeds and every attribute of the first entry found
has a value, the login succeeds with the DN, `cn` and `mail` of that entry and
with every attribute name of the entry as a key of `Attributes`. -/
theorem authenticateLDAP_found (env : Env) (config : LDAPConfig) (credentials : StringMap)
    (username password : String) (entry : Entry) (more : List Entry)
    (hdial : ∀ events addr, env.Dial events addr = none)
    (hbind : ∀ events dn pw, env.Bind events dn pw = none)
    (huser : mapGet credentials "username" = some username)
    (hpass : mapGet credentials "password" = some password)
    (hsearch : ∀ events req, env.Search events req = .ok (entry :: more))
    (hvalues : ∀ attr ∈ entry.Attributes, attr.Values ≠ []) :
    ∃ result, (authenticateLDAP env config credentials).1 =
        Outcome.returned (some result) none ∧
      result.UserID = entry.DN ∧
      result.UserName = GetAttributeValue entry.Attributes "cn" ∧
      result.Email = GetAttributeValue entry.Attributes "mail" ∧
      result.Valid = true ∧
      ∀ attr ∈ entry.Attributes, (mapGet result.Attributes attr.Name).isSome = true := by
  cases hcopy : ldapCopyAttributes entry.Attributes [] with
  | none =>
    obtain ⟨attr, hmem, hnil⟩ := (ldapCopyAttributes_eq_none_iff _ _).mp hcopy
    exact absurd hnil (hvalues attr hmem)
  | some attrs =>
    refine ⟨
      { UserID := entry.DN
        UserName := GetAttributeValue entry.Attributes "cn"
        Email := GetAttributeValue entry.Attributes "mail"
        Valid := true
        Attributes := attrs
        AccessToken := "" },
      ?_, rfl, rfl, rfl, rfl, (ldapCopyAttributes_keys _ _ _ hcopy).2⟩
    by_cases hset : config.BindDN = "" <;>
      simp [authenticateLDAP, hdial, hbind, huser, hpass, hsearch, hset, hcopy, succeed]

/-- Claim C13. The code at the failing input: a service account is configured,
both binds succeed and the search returns one entry, whose `mail` attribute
carries no value. The call neither reports the user as not found nor returns
a result built from the entry: the attribute loop panics on `attr.Values[0]`. -/
theorem authenticateLDAP_valueless_attribute_no_result :
    authenticateLDAP (directoryEnv [valuelessEntry])
        (exampleLDAP "cn=admin,dc=example,dc=com") aliceCredentials =
      (Outcome.panicked "runtime error: index out of range [0] with length 0",
       [Event.ldapDial "ldap.example.com:389",
        Event.ldapBind "cn=admin,dc=example,dc=com" "service-secret",
        Event.ldapBind "uid=alice,dc=example,dc=com" "wonderland",
        Event.ldapSearch
          { BaseDN := "dc=example,dc=com"
            Filter := "(&(objectClass=person)(uid=alice))"
            Attributes := ["dn", "cn", "mail"] },
        Event.ldapClose]) := by
  rfl

/-! ## C21: indexing `attr.Values[0]` -/

/-- When the directory accepts the binds and the first entry it returns
carries an attribute without a value, `authenticateLDAP` panics. -/
theorem authenticateLDAP_panics_of_valueless (env : Env) (config : LDAPConfig)
    (credentials : StringMap) (username password : String) (entry : Entry) (more : List Entry)
    (hdial : ∀ events addr, env.Dial events addr = none)
    (hbind : ∀ events dn pw, env.Bind events dn pw = none)
    (huser : mapGet credentials "username" = some username)
    (hpass : mapGet credentials "password" = some password)
    (hsearch : ∀ events req, env.Search events req = .ok (entry :: more))
    (hvalueless : ∃ attr ∈ entry.Attributes, attr.Values = []) :
    (authenticateLDAP env config credentials).1 =
      Outcome.panicked "runtime error: index out of range [0] with length 0" := by
  have hcopy := (ldapCopyAttributes_eq_none_iff entry.Attributes []).mpr hvalueless
  by_cases hset : config.BindDN = "" <;>
    simp [authenticateLDAP, hdial, hbind, huser, hpass, hsearch, hset, hcopy]

/-- Claim C21. The code at the failing input: the directory returns two entries
for `alice`, the first of which has a `mail` attribute with an empty value
list. The attribute loop does not complete: it indexes `attr.Values[0]` out of
range at `mail`, and `authenticateLDAP` panics instead of returning. -/
theorem authenticateLDAP_indexes_out_of_range :
    ldapCopyAttributes valuelessEntry.Attributes [] = none ∧
      (authenticateLDAP (directoryEnv [valuelessEntry, aliceEntry]) (exampleLDAP "")
          aliceCredentials).1 =
        Outcome.panicked "runtime error: index out of range [0] with length 0" := by
  constructor <;> rfl

/-! ## C22: runs of `authenticateJWT` that differ in the iteration order -/

theorem jwtCopyClaims_AccessToken (entries : List (String × JSONValue)) (result : AuthResult) :
    (jwtCopyClaims entries result).AccessToken = result.AccessToken := by
  induction entries generalizing result with
  | nil => rfl
  | cons entry rest ih =>
    obtain ⟨key, value⟩ := entry
    cases value <;> simp only [jwtCopyClaims, ih]
    split
    · rfl
    · split <;> rfl

/-- The value `lastString` finds does not depend on the order of the list when
all string entries with a key that satisfies `p` carry the same value. -/
theorem lastString_perm (p : String → Bool) (l1 l2 : List (String × JSONValue))
    (hperm : l1.Perm l2)
    (hunique : ∀ k k' s t, p k = true → p k' = true →
      (k, JSONValue.str s) ∈ l1 → (k', JSONValue.str t) ∈ l1 → s = t) :
    lastString p l1 = lastString p l2 := by
  cases h1 : lastString p l1 with
  | none =>
    cases h2 : lastString p l2 with
    | none => rfl
    | some w =>
      obtain ⟨k, hk, hmem⟩ := lastString_mem p l2 w h2
      obtain ⟨v, hv⟩ := lastString_isSome_of_mem p l1 k w hk (hperm.mem_iff.mpr hmem)
      rw [h1] at hv
      cases hv
  | some v =>
    obtain ⟨k, hk, hmem⟩ := lastString_mem p l1 v h1
    cases h2 : lastString p l2 with
    | none =>
      obtain ⟨w, hw⟩ := lastString_isSome_of_mem p l2 k v hk (hperm.mem_iff.mp hmem)
      rw [h2] at hw
      cases hw
    | some w =>
      obtain ⟨k', hk', hmem'⟩ := lastString_mem p l2 w h2
      rw [hunique k k' v w hk hk' hmem (hperm.mem_iff.mpr hmem')]

/-- Two runs of the claim loop over the same map, visited in two orders, agree
on `UserID`, `Valid`, `AccessToken`, `Email` and on every attribute; they agree
on `UserName` as well unless the map holds a string `name` and a string
`username` with different values. -/
theorem jwtCopyClaims_order (l1 l2 : List (String × JSONValue)) (result : AuthResult)
    (hperm : l1.Perm l2) (hkeys : (l1.map Prod.fst).Nodup) :
    (jwtCopyClaims l1 result).UserID = (jwtCopyClaims l2 result).UserID ∧
      (jwtCopyClaims l1 result).Valid = (jwtCopyClaims l2 result).Valid ∧
      (jwtCopyClaims l1 result).AccessToken = (jwtCopyClaims l2 result).AccessToken ∧
      (jwtCopyClaims l1 result).Email = (jwtCopyClaims l2 result).Email ∧
      (∀ k, mapGet (jwtCopyClaims l1 result).Attributes k =
        mapGet (jwtCopyClaims l2 result).Attributes k) ∧
      ((∀ s t, ("name", JSONValue.str s) ∈ l1 → ("username", JSONValue.str t) ∈ l1 → s = t) →
        (jwtCopyClaims l1 result).UserName = (jwtCopyClaims l2 result).UserName) := by
  have hsame : ∀ k s t, (k, JSONValue.str s) ∈ l1 → (k, JSONValue.str t) ∈ l1 → s = t := by
    intro k s t hs ht
    have := value_unique_of_nodup_keys l1 hkeys k _ _ hs ht
    cases this
    rfl
  have hkey : ∀ k, lastString (fun n => n = k) l1 = lastString (fun n => n = k) l2 := by
    intro k
    apply lastString_perm _ _ _ hperm
    intro a b s t ha hb hs ht
    have ha' : a = k := by simpa using ha
    have hb' : b = k := by simpa using hb
    subst ha'
    subst hb'
    exact hsame _ s t hs ht
  refine ⟨?_, ?_, ?_, ?_, ?_, ?_⟩
  · rw [jwtCopyClaims_UserID, jwtCopyClaims_UserID]
  · rw [jwtCopyClaims_Valid, jwtCopyClaims_Valid]
  · rw [jwtCopyClaims_AccessToken, jwtCopyClaims_AccessToken]
  · rw [jwtCopyClaims_Email, jwtCopyClaims_Email, hkey]
  · intro k
    rw [jwtCopyClaims_Attributes, jwtCopyClaims_Attributes, hkey]
  · intro hagree
    rw [jwtCopyClaims_UserName, jwtCopyClaims_UserName]
    congr 1
    apply lastString_perm _ _ _ hperm
    intro a b s t ha hb hs ht
    have ha' : a = "name" ∨ a = "username" := by simpa using ha
    have hb' : b = "name" ∨ b = "username" := by simpa using hb
    rcases ha' with ha' | ha' <;> rcases hb' with hb' | hb' <;> subst ha' <;> subst hb'
    · exact hsame _ s t hs ht
    · exact hagree s t hs ht
    · exact (hagree t s ht hs).symm
    · exact hsame _ s t hs ht

/-- Claim C22. The code at the failing input: one accepted token with the
claims `name = Alice` and `username = alice01`, the same configuration and the
same verification time, in two runs that differ only in the order in which the
`range` visits the claims map. The first run returns `UserName = alice01`, the
second `UserName = Alice`: the two results are not the same. -/
theorem authenticateJWT_user_name_depends_on_order :
    (authenticateJWT
        (jwtEnv (.ok (aliceClaims "https://issuer.example.com", twoNamesClaims)))
        jwtConfig.JWT [("token", "e30.e30.c2ln")]).1 =
      Outcome.returned
        (some
          { UserID := "alice"
            UserName := "alice01"
            Email := ""
            Attributes := [("sub", "alice"), ("name", "Alice"), ("username", "alice01")]
            Valid := true
            AccessToken := "" })
        none ∧
    (authenticateJWT
        (reversedRangeEnv (.ok (aliceClaims "https://issuer.example.com", twoNamesClaims)))
        jwtConfig.JWT [("token", "e30.e30.c2ln")]).1 =
      Outcome.returned
        (some
          { UserID := "alice"
            UserName := "Alice"
            Email := ""
            Attributes := [("username", "alice01"), ("name", "Alice"), ("sub", "alice")]
            Valid := true
            AccessToken := "" })
        none := by
  constructor <;> rfl

end MultiAuth
